import Mathlib

/-!
# A shallow embedding of the caml-lang pipeline

This file embeds, in Lean, the lexer, parser and tree-walking evaluator of
the caml-lang repository.  The repository contains two near-duplicate
copies of the pipeline:

* `python_code/` (lexer.py, parser.py, interpreter.py, builtins.py), and
* `caml/caml-code/` (lexer.py, parser.py, interpreter.py, plus a GUI layer).

Definitions named `py...` follow the `python_code` copy line by line;
definitions named `caml...` follow the `caml/caml-code` copy where the two
copies differ (the evaluator fallback for unknown function names, the
ForEach iterable lookup, and the function-definition block collection).

Modelling conventions:

* Python `None` is `Value.null`; a method that returns `None` returns
  `Value.null`.
* Python dicts are insertion-ordered association lists; assigning to an
  existing key updates it in place, a new key is appended at the end.
* Python floats are idealised as exact rationals (no claim in this
  development depends on floating-point rounding); operations whose result
  would be irrational (e.g. `math.sqrt` of a non-square) produce the
  explicit error `RErr.unmodelled`.
* Console output, prompts, file operations and the random generator are
  modelled as event logs and oracle streams threaded through the state.
* All evaluator and parser recursion is fuel-based; `RErr.outOfFuel`
  (resp. `none` for the parser) marks fuel exhaustion and corresponds to
  no behaviour of the source.
-/

namespace Caml

/-- A Python name slot: the source frequently stores `None` where a name is
expected (e.g. a parse helper that found no identifier), so names are
`Option String`. -/
abbrev Name := Option String

/-- Python runtime values as used by the interpreters: ints, floats
(idealised as rationals), bools, strings, `None`, lists and dicts. -/
inductive Value where
  | int (i : Int)
  | float (q : ℚ)
  | bool (b : Bool)
  | str (s : String)
  | null
  | list (xs : List Value)
  | dict (xs : List (String × Value))

/-- Association-list lookup (Python `d.get(k)` / `k in d`). -/
def alookup {κ α : Type} [BEq κ] : List (κ × α) → κ → Option α
  | [], _ => none
  | (k, v) :: rest, key => if k == key then some v else alookup rest key

/-- Association-list store (Python `d[k] = v`): updates an existing key in
place, otherwise appends at the end (Python dict insertion order). -/
def aset {κ α : Type} [BEq κ] (m : List (κ × α)) (key : κ) (v : α) :
    List (κ × α) :=
  if m.any (fun p => p.1 == key) then
    m.map (fun p => if p.1 == key then (key, v) else p)
  else m ++ [(key, v)]

/-- Association-list delete (Python `del d[k]`). -/
def adel {κ α : Type} [BEq κ] (m : List (κ × α)) (key : κ) :
    List (κ × α) :=
  m.filter (fun p => !(p.1 == key))

/-! Character-level string helpers.  The Lean core `String` functions
(`trim`, `toLower`, `splitOn`, `startsWith`, ...) are position-based and
do not reduce inside the kernel, so the embedding uses these structural
equivalents throughout. -/

def strLower (s : String) : String := String.mk (s.data.map Char.toLower)

def strUpper (s : String) : String := String.mk (s.data.map Char.toUpper)

/-- Python `str.strip()` on a character list. -/
def trimChars (cs : List Char) : List Char :=
  ((cs.dropWhile Char.isWhitespace).reverse.dropWhile Char.isWhitespace).reverse

def strTrim (s : String) : String := String.mk (trimChars s.data)

def strStartsWith (s p : String) : Bool := s.data.take p.data.length == p.data

/-- Split a character list at newlines (`str.split('\n')`). -/
def splitNl : List Char → List (List Char)
  | [] => [[]]
  | c :: rest =>
    if c == '\n' then [] :: splitNl rest
    else
      match splitNl rest with
      | [] => [[c]]
      | l :: ls => (c :: l) :: ls

/-- Digits to a natural number. -/
def natOfDigits (ds : List Char) : Nat :=
  ds.foldl (fun acc c => acc * 10 + (c.toNat - 48)) 0

/-- Python `int(str)` (sign and decimal digits after stripping). -/
def pyParseIntStr (s : String) : Option Int :=
  let core : List Char → Option Int := fun ds =>
    if !ds.isEmpty && ds.all Char.isDigit then some ((natOfDigits ds : Nat) : Int)
    else none
  match trimChars s.data with
  | '-' :: ds => (core ds).map (fun i => -i)
  | '+' :: ds => core ds
  | ds => core ds

/-- Python `str.split()`: split on whitespace runs, dropping empties. -/
def splitWsAux : List Char → List Char → List String
  | [], acc => if acc.isEmpty then [] else [String.mk acc.reverse]
  | c :: rest, acc =>
    if c.isWhitespace then
      if acc.isEmpty then splitWsAux rest []
      else String.mk acc.reverse :: splitWsAux rest []
    else splitWsAux rest (c :: acc)

def pySplitWs (s : String) : List String := splitWsAux s.data []

mutual

/-- Python `==` on values: numbers compare numerically across `int`,
`float` and `bool` (`True == 1`), strings by content, lists elementwise,
dicts by key set and values; values of unrelated kinds are unequal. -/
def pyEq : Value → Value → Bool
  | .int a, .int b => a == b
  | .int a, .float b => (a : ℚ) == b
  | .int a, .bool b => a == (if b then (1 : Int) else 0)
  | .float a, .int b => a == (b : ℚ)
  | .float a, .float b => a == b
  | .float a, .bool b => a == (if b then (1 : ℚ) else 0)
  | .bool a, .int b => (if a then (1 : Int) else 0) == b
  | .bool a, .float b => (if a then (1 : ℚ) else 0) == b
  | .bool a, .bool b => a == b
  | .str a, .str b => a == b
  | .null, .null => true
  | .list xs, .list ys => pyEqList xs ys
  | .dict xs, .dict ys => xs.length == ys.length && pyEqDict xs ys
  | _, _ => false

def pyEqList : List Value → List Value → Bool
  | [], [] => true
  | x :: xs, y :: ys => pyEq x y && pyEqList xs ys
  | _, _ => false

def pyEqDict : List (String × Value) → List (String × Value) → Bool
  | [], _ => true
  | (k, v) :: rest, ys =>
    (match alookup ys k with
     | some w => pyEq v w
     | none => false) && pyEqDict rest ys

end

/-- Python truthiness (`bool(v)`): `0`, `0.0`, `False`, `""`, `None`, `[]`
and `{}` are falsy, everything else truthy. -/
def pyBool : Value → Bool
  | .int i => !(i == 0)
  | .float q => !(q == 0)
  | .bool b => b
  | .str s => !(s == "")
  | .null => false
  | .list xs => !xs.isEmpty
  | .dict xs => !xs.isEmpty

/-- `isinstance(v, (int, float))`: note that Python `bool` IS an `int`. -/
def Value.isNum : Value → Bool
  | .int _ => true
  | .float _ => true
  | .bool _ => true
  | _ => false

def Value.isFloat : Value → Bool
  | .float _ => true
  | _ => false

/-- Numeric value of an int/float/bool (0 for other kinds; callers guard
with `isNum`). -/
def Value.toQ : Value → ℚ
  | .int i => (i : ℚ)
  | .float q => q
  | .bool b => if b then 1 else 0
  | _ => 0

/-- The integer behind an int-like value (`int` or `bool`), if any. -/
def Value.intish : Value → Option Int
  | .int i => some i
  | .bool b => some (if b then 1 else 0)
  | _ => none

/-- Runtime errors of the embedded interpreters.  Each constructor names
the Python exception the source would raise at the same point. -/
inductive RErr where
  | typeError (msg : String)          -- TypeError
  | valueError (msg : String)         -- ValueError
  | zeroDivision                      -- ZeroDivisionError
  | indexError                        -- IndexError
  | eofError                          -- EOFError (input() at end of stream)
  | undefinedFunction (name : Name)   -- Exception "Function ... not defined"
  | noVisitMethod                     -- Exception "No visit method for ..."
  | buttonError (msg : String)        -- Exception from visit_ButtonNode
  | unmodelled (what : String)        -- result outside the model (see header)
  | outOfFuel                         -- fuel exhaustion artefact
deriving DecidableEq

/-- Python `int(v)` as used by the source (`int()` on floats truncates
toward zero; on strings it parses a decimal literal). -/
def pyToInt : Value → Except RErr Int
  | .int i => .ok i
  | .bool b => .ok (if b then 1 else 0)
  | .float q => .ok (if 0 ≤ q then ⌊q⌋ else ⌈q⌉)
  | .str s =>
    match pyParseIntStr s with
    | some i => .ok i
    | none => .error (.valueError "invalid literal for int")
  | _ => .error (.typeError "int() argument")

/-- Result kind of a Python arithmetic op on two numbers: `int` when both
operands are int-like, `float` as soon as one is a float. -/
def numResult (a b : Value) (q : ℚ) : Value :=
  if a.isFloat || b.isFloat then .float q else .int q.num

/-- Python `+`: numeric addition, string concatenation, list
concatenation; otherwise `TypeError`. -/
def pyAdd : Value → Value → Except RErr Value
  | a, b =>
    if a.isNum && b.isNum then .ok (numResult a b (a.toQ + b.toQ))
    else match a, b with
      | .str x, .str y => .ok (.str (x ++ y))
      | .list x, .list y => .ok (.list (x ++ y))
      | _, _ => .error (.typeError "unsupported operand type for +")

/-- Python `-`: numeric only. -/
def pySub (a b : Value) : Except RErr Value :=
  if a.isNum && b.isNum then .ok (numResult a b (a.toQ - b.toQ))
  else .error (.typeError "unsupported operand type for -")

/-- Python `*`: numeric product, or sequence repetition
(`str * int`, `list * int` and the symmetric forms). -/
def pyMul : Value → Value → Except RErr Value
  | a, b =>
    if a.isNum && b.isNum then .ok (numResult a b (a.toQ * b.toQ))
    else match a, b with
      | .str x, .int n => .ok (.str (String.join (List.replicate n.toNat x)))
      | .int n, .str x => .ok (.str (String.join (List.replicate n.toNat x)))
      | .list x, .int n => .ok (.list (List.flatten (List.replicate n.toNat x)))
      | .int n, .list x => .ok (.list (List.flatten (List.replicate n.toNat x)))
      | _, _ => .error (.typeError "unsupported operand type for *")

/-- Python `/` (true division): numeric only, result is always a float,
`ZeroDivisionError` when the divisor is zero. -/
def pyDiv (a b : Value) : Except RErr Value :=
  if a.isNum && b.isNum then
    if b.toQ == 0 then .error .zeroDivision
    else .ok (.float (a.toQ / b.toQ))
  else .error (.typeError "unsupported operand type for /")

/-- Python `**`: exact for int-like bases and exponents and for integral
exponents over floats; a non-integral exponent would produce an irrational
float and is reported as `unmodelled`. -/
def pyPow (a b : Value) : Except RErr Value :=
  if a.isNum && b.isNum then
    match a.intish, b.intish with
    | some x, some y =>
      if 0 ≤ y then .ok (.int (x ^ y.toNat))
      else if x == 0 then .error .zeroDivision
      else .ok (.float ((x : ℚ) ^ y))
    | _, some y =>
      if 0 ≤ y then .ok (.float (a.toQ ^ y.toNat))
      else if a.toQ == 0 then .error .zeroDivision
      else .ok (.float (a.toQ ^ y))
    | _, none => .error (.unmodelled "non-integral float exponent")
  else .error (.typeError "unsupported operand type for **")

/-- Render a rational the way Python renders the corresponding float.
Exact when the denominator divides a power of ten (the only floats the
pipeline can produce from source text); only used for console output, no
claim depends on it. -/
def floatStr (q : ℚ) : String :=
  if q.den = 1 then toString q.num ++ ".0"
  else
    match (List.range 40).find? (fun k => (10 ^ k : Nat) % q.den = 0) with
    | some k =>
      let scaled : Int := q.num * (((10 ^ k : Nat) / q.den : Nat) : Int)
      let sign := if scaled < 0 then "-" else ""
      let ds : List Char := (toString scaled.natAbs).data
      let ds := if ds.length ≤ k then List.replicate (k + 1 - ds.length) '0' ++ ds
                else ds
      let whole := ds.take (ds.length - k)
      let frac := ((ds.drop (ds.length - k)).reverse.dropWhile (· == '0')).reverse
      sign ++ String.mk whole ++ "." ++ (if frac.isEmpty then "0" else String.mk frac)
    | none => toString q.num ++ "/" ++ toString q.den

mutual

/-- Python `str(v)` as printed by `print`. -/
def pyStr : Value → String
  | .int i => toString i
  | .float q => floatStr q
  | .bool b => if b then "True" else "False"
  | .str s => s
  | .null => "None"
  | .list xs => "[" ++ pyReprJoin xs ++ "]"
  | .dict xs => "\x7b" ++ pyReprDictJoin xs ++ "\x7d"

/-- Python `repr(v)` (used for elements inside list/dict display). -/
def pyRepr : Value → String
  | .str s => (Char.ofNat 39).toString ++ s ++ (Char.ofNat 39).toString
  | .int i => toString i
  | .float q => floatStr q
  | .bool b => if b then "True" else "False"
  | .null => "None"
  | .list xs => "[" ++ pyReprJoin xs ++ "]"
  | .dict xs => "\x7b" ++ pyReprDictJoin xs ++ "\x7d"

def pyReprJoin : List Value → String
  | [] => ""
  | [x] => pyRepr x
  | x :: xs => pyRepr x ++ ", " ++ pyReprJoin xs

def pyReprDictJoin : List (String × Value) → String
  | [] => ""
  | [(k, v)] =>
    (Char.ofNat 39).toString ++ k ++ (Char.ofNat 39).toString ++ ": " ++ pyRepr v
  | (k, v) :: xs =>
    (Char.ofNat 39).toString ++ k ++ (Char.ofNat 39).toString ++ ": " ++ pyRepr v
      ++ ", " ++ pyReprDictJoin xs

end

/-! ## Tokens, lines and the AST (nodes.py) -/

/-- A lexer token: `Token = namedtuple('Token', ['type', 'value'])`.  The
`value` is a Python value (keyword text, identifier text, string content,
or a numeric literal), so we reuse `Value` for it. -/
structure Token where
  kind : String
  value : Value

/-- One source line after lexing: `(indent, [Token, ...])`. -/
structure Line where
  indent : Nat
  toks : List Token

/-- A value expression as stored in an AST field: either a plain Python
value (literal or identifier text) or a nested `FunctionCallNode` (the
caml-code dialect stores call nodes in `DisplayNode.value`). -/
inductive Expr where
  | val (v : Value)
  | call (name : Name) (args : List Value)

/-- The file-operation payload of `FileNode` (action, filename, text,
at_first, find_text, replace_text, old_name, new_name). -/
structure FileReq where
  action : Name
  filename : Option String
  text : Option String
  atFirst : Bool
  findText : Option String
  replaceText : Option String
  oldName : Option String
  newName : Option String
deriving DecidableEq

/-- The closed set of AST statement nodes (nodes.py, both copies; the
caml copy adds `ButtonNode`). -/
inductive Stmt where
  | display (value : Expr) (bold : Bool)
  | interact (prompt : Value) (bold : Bool)
  | assign (varName : Name) (value : Value)
  | set (varName : Name) (value : Value)
  | change (varName : Name) (value : Value)
  | increase (varName : Name) (value : Value)
  | decrease (varName : Name) (value : Value)
  | multiply (varName : Name) (value : Value)
  | divide (varName : Name) (value : Value)
  | exponentiate (varName : Name) (value : Value)
  | blockVar (varName : Name)
  | functionDef (name : Name) (args : List String) (body : List Stmt)
  | functionCall (name : Name) (args : List Value)
  | functionAbbrev (originalName : Name) (newName : Name)
  | ifS (condition : Value) (body : List Stmt)
  | orIf (condition : Value) (body : List Stmt)
  | otherwise (body : List Stmt)
  | repeatN (times : Value) (body : List Stmt)
  | doUntil (condition : Value) (body : List Stmt)
  | forEach (varName : Name) (iterable : Name) (body : List Stmt)
  | listDecl (name : Name) (elements : List Value)
  | listAdd (listName : Name) (value : Value)
  | listRemove (listName : Name) (value : Value)
  | dictDecl (name : Name) (elements : List (String × Value))
  | dictAdd (dictName : Name) (key : String) (value : Value)
  | dictRemove (dictName : Name) (key : String)
  | objectDecl (name : Name) (body : List Stmt) (isWindow : Bool)
  | objectSetProp (objectName : Name) (propName : String) (value : Value)
  | objectChangeProp (objectName : Name) (propName : String) (value : Value)
  | objectDeleteProp (objectName : Name) (propName : String)
  | objectBlockProp (objectName : Name) (propName : String)
  | objectAddFunction (objectName : Name) (funcName : Name)
      (funcArgs : List String) (funcBody : List Stmt)
  | button (name : Name) (parent : Name) (body : List Stmt)
  | mathFunc (funcName : String) (args : List Value)
  | fileOp (req : FileReq)
  | getLength (target : Value)
  | getCase (target : Value) (mode : Option String)
  | getType (target : Value)
  | importS (modules : List String) (filename : Option String)
  | exportS (modules : List String)

/-- A stored user function: the `FunctionDefNode` payload.  The node
keeps its own `name` (an abbreviation stores the same node under a new
key, and the call stack records `func.name`, not the call name). -/
structure FuncDef where
  name : Name
  args : List String
  body : List Stmt

/-- An object record: `{'properties': {...}, 'functions': {...}}`, plus
the `'tk_window'` key the caml copy stores for window objects. -/
structure Obj where
  properties : List (String × Value)
  functions : List (Name × FuncDef)
  tkWindow : Bool

/-- One stdin event: a line of input, or a KeyboardInterrupt while the
evaluator is blocked in `input()`. -/
inductive InEvent where
  | line (s : String)
  | interrupt
deriving DecidableEq

/-- One console event: a `print` line, or the prompt text `input()` writes
before blocking. -/
inductive CEvent where
  | outLine (s : String)
  | promptStr (s : String)
deriving DecidableEq

/-- Interpreter state: the namespaces of `Interpreter.__init__` plus the
event logs and oracle streams that stand in for real I/O.  The three
`gui*` fields exist only in the caml copy and are never touched by the
`py*` evaluator. -/
structure St where
  -- self.variables in the source (renamed: Lean reserves the word)
  vars : List (Name × Value)
  functions : List (Name × FuncDef)
  lists : List (Name × List Value)
  dicts : List (Name × List (String × Value))
  objects : List (Name × Obj)
  modules : List (Name × List String)
  callStack : List Name
  console : List CEvent
  inputs : List InEvent
  randoms : List Int
  fileEffects : List FileReq
  guiRootCreated : Bool
  -- whether self.gui_root holds a tk root (caml copy only)
  guiRoot : Bool
  guiWindows : List Name
  guiButtons : List Name

/-- The empty initial state of a run (no inputs, no randomness). -/
def St.init : St :=
  { vars := [], functions := [], lists := [], dicts := [], objects := []
    modules := [], callStack := [], console := [], inputs := [], randoms := []
    fileEffects := [], guiRootCreated := false, guiRoot := false
    guiWindows := [], guiButtons := [] }

/-- A state with chosen input and random oracles and empty namespaces. -/
def St.withOracles (ins : List InEvent) (rnds : List Int) : St :=
  { St.init with inputs := ins, randoms := rnds }

/-! ## Shared pure helpers of both evaluators -/

/-- `_resolve_value` (python_code interpreter.py lines 347-362; identical
in the caml copy for non-node arguments): literals pass through, a string
is looked up in the list, then dict, then scalar namespace, and is
returned verbatim when no namespace contains it. -/
def presolve (st : St) : Value → Value
  | .int i => .int i
  | .float q => .float q
  | .bool b => .bool b
  | .null => .null
  | .str s =>
    match alookup st.lists (some s) with
    | some l => .list l
    | none =>
      match alookup st.dicts (some s) with
      | some d => .dict d
      | none =>
        match alookup st.vars (some s) with
        | some v => v
        | none => .str s
  | .list xs => .list xs
  | .dict xs => .dict xs

/-- `_get_var`: the stored scalar or `None`. -/
def pgetVar (st : St) (name : Name) : Value :=
  (alookup st.vars name).getD .null

/-- `_set_var`: stores the RESOLVED value (the source resolves again on
every store). -/
def psetVar (st : St) (name : Name) (value : Value) : St :=
  { st with vars := aset st.vars name (presolve st value) }

/-- `_evaluate_condition`: resolve, then Python truthiness. -/
def pCondition (st : St) (cond : Value) : Bool :=
  pyBool (presolve st cond)

/-- Python `str.capitalize()` on one word: first character upper-cased,
the rest lower-cased (ASCII, as produced by this pipeline). -/
def pyCapitalize (w : String) : String :=
  match w.data with
  | [] => ""
  | c :: rest => String.mk (c.toUpper :: rest.map Char.toLower)

/-- The common body of `visit_GetCaseNode`: mode dispatch over the
string form of the target. -/
def pyCase (t : Value) (m : String) : String :=
  if m == "upper" then strUpper (pyStr t)
  else if m == "lower" then strLower (pyStr t)
  else if m == "camel" || m == "pascal" then
    String.join ((pySplitWs (pyStr t)).map pyCapitalize)
  else if m == "snake" then
    strLower (String.mk ((pyStr t).data.map (fun c => if c == ' ' then '_' else c)))
  else pyStr t

/-- `visit_GetTypeNode`: Python type name of a value (`'null'` for
`None`, per the source). -/
def pyTypeName : Value → String
  | .null => "null"
  | .int _ => "int"
  | .float _ => "float"
  | .bool _ => "bool"
  | .str _ => "str"
  | .list _ => "list"
  | .dict _ => "dict"

/-- `len(v)` wrapped in the `try/except: return 0` of the getters. -/
def pyLenOr0 : Value → Int
  | .str s => s.length
  | .list l => l.length
  | .dict d => d.length
  | _ => 0

/-- `math.sqrt`: domain error below zero; exact when the rational root
exists, `unmodelled` otherwise (an irrational float). -/
def pySqrt (v : Value) : Except RErr Value :=
  if v.isNum then
    let q := v.toQ
    if q < 0 then .error (.valueError "math domain error")
    else
      let rn := Nat.sqrt q.num.toNat
      let rd := Nat.sqrt q.den
      if rn * rn = q.num.toNat && rd * rd = q.den then
        .ok (.float ((rn : ℚ) / (rd : ℚ)))
      else .error (.unmodelled "irrational square root")
  else .error (.typeError "must be a real number")

/-- `math.gcd(int(a), int(b))`. -/
def pyGcdV (a b : Value) : Except RErr Value := do
  let x ← pyToInt a
  let y ← pyToInt b
  return .int (Int.gcd x y)

/-- `abs(a*b) // math.gcd(a, b)` (the lcm of builtins.py and
`visit_MathFuncNode`); `ZeroDivisionError` when both are zero. -/
def pyLcmV (a b : Value) : Except RErr Value := do
  let x ← pyToInt a
  let y ← pyToInt b
  let g : Nat := Int.gcd x y
  if g = 0 then throw .zeroDivision
  else return .int (((x * y).natAbs / g : Nat))

/-- `random.randint(lo, hi)` against the random oracle stream: the next
oracle value folded into the inclusive range (empty stream defaults to
`lo`).  Raises `ValueError` when the range is empty, like the original. -/
def pyRandInt (lo hi : Int) (st : St) : (Except RErr Value) × St :=
  if hi < lo then (.error (.valueError "empty range for randrange"), st)
  else
    match st.randoms with
    | r :: rest =>
      (.ok (.int (lo + (r - lo).emod (hi - lo + 1))), { st with randoms := rest })
    | [] => (.ok (.int lo), st)

/-- `remove` of the first `==`-equal element of a Python list. -/
def pyRemoveFirst (v : Value) : List Value → List Value
  | [] => []
  | x :: xs => if pyEq x v then xs else x :: pyRemoveFirst v xs

/-- Shared logic of `visit_MathFuncNode` (identical in both copies). -/
def pyMathFunc (fname : String) (rargs : List Value) (st : St) :
    (Except RErr Value) × St :=
  if fname == "SQUARE" then
    match rargs with
    | a :: _ => (pyPow a (.int 2), st)
    | [] => (.error .indexError, st)
  else if fname == "SQUAREROOT" then
    match rargs with
    | a :: _ => (pySqrt a, st)
    | [] => (.error .indexError, st)
  else if fname == "GCD" then
    match rargs with
    | a :: b :: _ => (pyGcdV a b, st)
    | _ => (.error .indexError, st)
  else if fname == "LCM" then
    match rargs with
    | a :: b :: _ => (pyLcmV a b, st)
    | _ => (.error .indexError, st)
  else if fname == "RANDOM_INT" then
    if rargs.length == 2 then
      match rargs with
      | a :: b :: _ =>
        (match pyToInt a, pyToInt b with
         | .ok x, .ok y => pyRandInt x y st
         | .error e, _ => (.error e, st)
         | _, .error e => (.error e, st))
      | _ => (.error .indexError, st)
    else pyRandInt 1 10 st
  else (.ok .null, st)

/-- Shared logic of `visit_FileNode` (identical in both copies): each
action is translated into one entry of the external file-effect log.
`open(None)`/`os.path.exists(None)` raise `TypeError`, mirrored here;
`FILE_RENAME` requires truthy (non-empty) old and new names, which the
parser never sets, and any unknown action falls through silently. -/
def pyFileOp (req : FileReq) (st : St) : (Except RErr Value) × St :=
  let log : St := { st with fileEffects := st.fileEffects ++ [req] }
  match req.action with
  | some "FILE_CREATE" | some "FILE_DELETE" | some "FILE_WRITE"
  | some "FILE_FIND" | some "FILE_REPLACE" =>
    match req.filename with
    | some _ => (.ok .null, log)
    | none => (.error (.typeError "path should be string"), st)
  | some "FILE_RENAME" =>
    match req.oldName, req.newName with
    | some o, some n =>
      if !(o == "") && !(n == "") then (.ok .null, log) else (.ok .null, st)
    | _, _ => (.ok .null, st)
  | _ => (.ok .null, st)

/-- The callable names bound by `from builtins import *` in BOTH
interpreter modules.  When either interpreter.py is imported, the
standard `builtins` module already sits in `sys.modules`, so the
star-import binds the names of the STANDARD builtins module — the local
python_code/builtins.py is shadowed and its helper functions (`add`,
`subtract`, ...) never enter the module globals.  This is the list of
the non-underscore names of the standard module whose values are
callable under CPython 3.11: the builtin functions and types, every
exception and warning class, and the site-installed objects `exit`,
`quit`, `copyright`, `credits`, `license` and `help`. -/
def builtinsStarCallables : List String :=
  ["ArithmeticError", "AssertionError", "AttributeError",
   "BaseException", "BaseExceptionGroup", "BlockingIOError",
   "BrokenPipeError", "BufferError", "BytesWarning",
   "ChildProcessError", "ConnectionAbortedError", "ConnectionError",
   "ConnectionRefusedError", "ConnectionResetError",
   "DeprecationWarning", "EOFError", "EncodingWarning",
   "EnvironmentError", "Exception", "ExceptionGroup", "FileExistsError",
   "FileNotFoundError", "FloatingPointError", "FutureWarning",
   "GeneratorExit", "IOError", "ImportError", "ImportWarning",
   "IndentationError", "IndexError", "InterruptedError",
   "IsADirectoryError", "KeyError", "KeyboardInterrupt", "LookupError",
   "MemoryError", "ModuleNotFoundError", "NameError",
   "NotADirectoryError", "NotImplementedError", "OSError",
   "OverflowError", "PendingDeprecationWarning", "PermissionError",
   "ProcessLookupError", "RecursionError", "ReferenceError",
   "ResourceWarning", "RuntimeError", "RuntimeWarning",
   "StopAsyncIteration", "StopIteration", "SyntaxError",
   "SyntaxWarning", "SystemError", "SystemExit", "TabError",
   "TimeoutError", "TypeError", "UnboundLocalError",
   "UnicodeDecodeError", "UnicodeEncodeError", "UnicodeError",
   "UnicodeTranslateError", "UnicodeWarning", "UserWarning",
   "ValueError", "Warning", "ZeroDivisionError", "abs", "aiter", "all",
   "anext", "any", "ascii", "bin", "bool", "breakpoint", "bytearray",
   "bytes", "callable", "chr", "classmethod", "compile", "complex",
   "copyright", "credits", "delattr", "dict", "dir", "divmod",
   "enumerate", "eval", "exec", "exit", "filter", "float", "format",
   "frozenset", "getattr", "globals", "hasattr", "hash", "help", "hex",
   "id", "input", "int", "isinstance", "issubclass", "iter", "len",
   "license", "list", "locals", "map", "max", "memoryview", "min",
   "next", "object", "oct", "open", "ord", "pow", "print", "property",
   "quit", "range", "repr", "reversed", "round", "set", "setattr",
   "slice", "sorted", "staticmethod", "str", "sum", "super", "tuple",
   "type", "vars", "zip"]

/-- The AST classes star-imported by `from nodes import *` (identical in
both nodes.py copies except for `ButtonNode`, which only the caml copy
defines); all of them are callable class objects in the interpreter
module's globals. -/
def nodeClassNames : List String :=
  ["DisplayNode", "InteractNode", "AssignNode", "SetNode", "ChangeNode",
   "IncreaseNode", "DecreaseNode", "MultiplyNode", "DivideNode",
   "ExponentiateNode", "BlockVarNode", "FunctionDefNode",
   "FunctionCallNode", "FunctionAbbrevNode", "IfNode", "OrIfNode",
   "OtherwiseNode", "RepeatNode", "DoUntilNode", "ForEachNode",
   "ListNode", "ListAddNode", "ListRemoveNode", "DictionaryNode",
   "DictAddNode", "DictRemoveNode", "ObjectNode", "ObjectSetPropNode",
   "ObjectChangePropNode", "ObjectDeletePropNode", "ObjectBlockPropNode",
   "ObjectAddFunctionNode", "MathFuncNode", "FileNode", "GetLengthNode",
   "GetCaseNode", "GetTypeNode", "ImportNode", "ExportNode"]

/-- The complete set of callable module globals of
python_code/interpreter.py: the standard builtin callables (see
`builtinsStarCallables`), the AST classes, and the `Interpreter` class
itself.  The imported modules `math`, `random` and `os` are module
objects, which are NOT callable, so they fall through `callable(...)`
like any unmatched name. -/
def pyCallableNames : List String :=
  builtinsStarCallables ++ nodeClassNames ++ ["Interpreter"]

/-- `globals().get(node.name)` + `callable(...)` in the python_code
copy (the trailing `or locals().get(node.name)` can only produce the
non-callable locals `self`, `node` and the falsy `func`, so it never
adds a callable).  Invoking one of these callables leaves this model (a
stdlib call or a Python object construction), so the embedding reports
it as `unmodelled`; for any name outside this table the source
raises. -/
def pyBuiltin : Name → Option (List Value → St → (Except RErr Value) × St)
  | some s =>
    if pyCallableNames.contains s then
      some (fun _ st => (.error (.unmodelled "library callable"), st))
    else none
  | none => none

/-! ## The python_code evaluator (python_code/interpreter.py) -/

mutual

/-- One dispatch step of the python_code `Interpreter.visit`.  Returns the
Python return value of the handler (`Value.null` for handlers that return
`None`) together with the mutated state.  Fuel is decremented on every
mutual call; `RErr.outOfFuel` never corresponds to source behaviour. -/
def pvisit : Nat → St → Stmt → (Except RErr Value) × St
  | 0, st, _ => (.error .outOfFuel, st)
  | fuel + 1, st, stmt =>
    match stmt with
    | .display value bold =>
      -- visit_DisplayNode: `print` of the resolved value, bold-wrapped.
      -- A call-valued expression is unreachable from the python_code
      -- parser; `_resolve_value` would return the node object itself and
      -- print its repr, rendered here as an opaque marker.
      let val : Value := match value with
        | .val v => presolve st v
        | .call _ _ => .str "<FunctionCallNode object>"
      let out := if bold then "**" ++ pyStr val ++ "**" else pyStr val
      (.ok .null, { st with console := st.console ++ [.outLine out] })
    | .interact prompt bold =>
      -- visit_InteractNode: write prompt + ": ", read one event.
      let p := presolve st prompt
      let ptext := (if bold then "**" ++ pyStr p ++ "**" else pyStr p) ++ ": "
      let st1 : St := { st with console := st.console ++ [.promptStr ptext] }
      (match st1.inputs with
       | .line s :: rest => (.ok (.str s), { st1 with inputs := rest })
       | .interrupt :: rest => (.ok (.str ""), { st1 with inputs := rest })
       | [] => (.error .eofError, st1))
    | .assign varName value => (.ok .null, psetVar st varName value)
    | .set varName value => (.ok .null, psetVar st varName value)
    | .change varName value =>
      -- visit_ChangeNode: both branches of the source store the value.
      (.ok .null, psetVar st varName value)
    | .increase varName value =>
      let val := presolve st value
      let cur := pgetVar st varName
      if cur.isNum then
        match pyAdd cur val with
        | .ok v => (.ok .null, psetVar st varName v)
        | .error e => (.error e, st)
      else (.error (.typeError "Increase supports ints/floats only"), st)
    | .decrease varName value =>
      let val := presolve st value
      let cur := pgetVar st varName
      if cur.isNum then
        match pySub cur val with
        | .ok v => (.ok .null, psetVar st varName v)
        | .error e => (.error e, st)
      else (.error (.typeError "Decrease supports ints/floats only"), st)
    | .multiply varName value =>
      let val := presolve st value
      let cur := pgetVar st varName
      if cur.isNum then
        match pyMul cur val with
        | .ok v => (.ok .null, psetVar st varName v)
        | .error e => (.error e, st)
      else (.error (.typeError "Multiply supports ints/floats only"), st)
    | .divide varName value =>
      let val := presolve st value
      let cur := pgetVar st varName
      if cur.isNum then
        match pyDiv cur val with
        | .ok v => (.ok .null, psetVar st varName v)
        | .error e => (.error e, st)
      else (.error (.typeError "Divide supports ints/floats only"), st)
    | .exponentiate varName value =>
      let val := presolve st value
      let cur := pgetVar st varName
      if cur.isNum then
        match pyPow cur val with
        | .ok v => (.ok .null, psetVar st varName v)
        | .error e => (.error e, st)
      else (.error (.typeError "Exponentiate supports ints/floats only"), st)
    | .blockVar varName =>
      (.ok .null, { st with vars := adel st.vars varName })
    | .functionDef name args body =>
      (.ok .null,
       { st with functions := aset st.functions name ⟨name, args, body⟩ })
    | .functionCall name args =>
      -- visit_FunctionCallNode (python_code, lines 112-140).
      (match alookup st.functions name with
       | none =>
         (match pyBuiltin name with
          | some bf => bf (args.map (presolve st)) st
          | none => (.error (.undefinedFunction name), st))
       | some fd =>
         let localVars := (fd.args.zip args).map
           (fun p => ((some p.1 : Name), presolve st p.2))
         let oldVars := st.vars
         let merged := localVars.foldl (fun m p => aset m p.1 p.2) st.vars
         let st1 := { st with vars := merged,
                              callStack := st.callStack ++ [fd.name] }
         match pbodyLoop fuel st1 fd.body .null with
         | (.error e, st2) => (.error e, st2)
         | (.ok ret, st2) =>
           (.ok ret, { st2 with callStack := st2.callStack.dropLast,
                                vars := oldVars }))
    | .functionAbbrev originalName newName =>
      (match alookup st.functions originalName with
       | some fd => (.ok .null,
           { st with functions := aset st.functions newName fd })
       | none => (.ok .null, st))
    | .ifS condition body =>
      if pCondition st condition then
        match pexecSeq fuel st body with
        | (.error e, st1) => (.error e, st1)
        | (.ok _, st1) => (.ok .null, st1)
      else (.ok .null, st)
    | .orIf condition body =>
      if pCondition st condition then
        match pexecSeq fuel st body with
        | (.error e, st1) => (.error e, st1)
        | (.ok _, st1) => (.ok .null, st1)
      else (.ok .null, st)
    | .otherwise body =>
      (match pexecSeq fuel st body with
       | (.error e, st1) => (.error e, st1)
       | (.ok _, st1) => (.ok .null, st1))
    | .repeatN times body =>
      (match pyToInt (presolve st times) with
       | .error e => (.error e, st)
       | .ok t =>
         match prepeatLoop fuel st t.toNat body with
         | (.error e, st1) => (.error e, st1)
         | (.ok _, st1) => (.ok .null, st1))
    | .doUntil condition body =>
      (match pdoUntilLoop fuel st condition body with
       | (.error e, st1) => (.error e, st1)
       | (.ok _, st1) => (.ok .null, st1))
    | .forEach varName iterable body =>
      -- visit_ForEachNode (python_code, lines 176-183):
      -- `self.lists.get(..) or self._get_var(..) or []`.
      let fromLists : Option Value :=
        match alookup st.lists iterable with
        | some l => if pyBool (.list l) then some (.list l) else none
        | none => none
      let chosen : Value :=
        match fromLists with
        | some v => v
        | none =>
          let gv := pgetVar st iterable
          if pyBool gv then gv else .list []
      (match chosen with
       | .list items =>
         (match pforLoop fuel st varName items body with
          | (.error e, st1) => (.error e, st1)
          | (.ok _, st1) => (.ok .null, st1))
       | _ => (.error (.typeError "For each expects a list"), st))
    | .listDecl name elements =>
      (.ok .null,
       { st with lists := aset st.lists name (elements.map (presolve st)) })
    | .listAdd listName value =>
      let val := presolve st value
      let ls0 := if (alookup st.lists listName).isSome then st.lists
                 else aset st.lists listName []
      let cur := (alookup ls0 listName).getD []
      (.ok .null, { st with lists := aset ls0 listName (cur ++ [val]) })
    | .listRemove listName value =>
      let val := presolve st value
      (match alookup st.lists listName with
       | some l =>
         if l.any (fun x => pyEq val x) then
           (.ok .null, { st with lists := aset st.lists listName (pyRemoveFirst val l) })
         else (.ok .null, st)
       | none => (.ok .null, st))
    | .dictDecl name elements =>
      let d := elements.foldl (fun d p => aset d p.1 (presolve st p.2)) []
      (.ok .null, { st with dicts := aset st.dicts name d })
    | .dictAdd dictName key value =>
      let val := presolve st value
      let ds0 := if (alookup st.dicts dictName).isSome then st.dicts
                 else aset st.dicts dictName []
      let cur := (alookup ds0 dictName).getD []
      (.ok .null, { st with dicts := aset ds0 dictName (aset cur key val) })
    | .dictRemove dictName key =>
      (match alookup st.dicts dictName with
       | some d =>
         if (alookup d key).isSome then
           (.ok .null, { st with dicts := aset st.dicts dictName (adel d key) })
         else (.ok .null, st)
       | none => (.ok .null, st))
    | .objectDecl name body _ =>
      -- visit_ObjectNode (python_code): unconditionally reinitialises the
      -- object record, then visits the body.
      let st1 := { st with objects := aset st.objects name ⟨[], [], false⟩ }
      (match pexecSeq fuel st1 body with
       | (.error e, st2) => (.error e, st2)
       | (.ok _, st2) => (.ok .null, st2))
    | .objectSetProp objectName propName value =>
      let obj := (alookup st.objects objectName).getD ⟨[], [], false⟩
      let obj1 := { obj with
        properties := aset obj.properties propName (presolve st value) }
      (.ok .null, { st with objects := aset st.objects objectName obj1 })
    | .objectChangeProp objectName propName value =>
      (match alookup st.objects objectName with
       | some obj =>
         if (alookup obj.properties propName).isSome then
           let obj1 := { obj with
             properties := aset obj.properties propName (presolve st value) }
           (.ok .null, { st with objects := aset st.objects objectName obj1 })
         else (.ok .null, st)
       | none => (.ok .null, st))
    | .objectDeleteProp objectName propName =>
      (match alookup st.objects objectName with
       | some obj =>
         if (alookup obj.properties propName).isSome then
           let obj1 := { obj with properties := adel obj.properties propName }
           (.ok .null, { st with objects := aset st.objects objectName obj1 })
         else (.ok .null, st)
       | none => (.ok .null, st))
    | .objectBlockProp objectName propName =>
      (match alookup st.objects objectName with
       | some obj =>
         if (alookup obj.properties propName).isSome then
           let obj1 := { obj with
             properties := aset obj.properties propName .null }
           (.ok .null, { st with objects := aset st.objects objectName obj1 })
         else (.ok .null, st)
       | none => (.ok .null, st))
    | .objectAddFunction objectName funcName funcArgs funcBody =>
      let obj := (alookup st.objects objectName).getD ⟨[], [], false⟩
      let obj1 := { obj with
        functions := aset obj.functions funcName ⟨funcName, funcArgs, funcBody⟩ }
      (.ok .null, { st with objects := aset st.objects objectName obj1 })
    | .button _ _ _ =>
      -- python_code has no visit_ButtonNode handler: the dispatcher
      -- raises `Exception("No visit method for ...")`.
      (.error .noVisitMethod, st)
    | .mathFunc funcName args =>
      pyMathFunc funcName (args.map (presolve st)) st
    | .fileOp req => pyFileOp req st
    | .getLength target => (.ok (.int (pyLenOr0 (presolve st target))), st)
    | .getCase target mode =>
      -- python_code default mode: `node.mode or 'undefined'`.
      let m := match mode with
        | some m => if m == "" then "undefined" else m
        | none => "undefined"
      (.ok (.str (pyCase (presolve st target) m)), st)
    | .getType target => (.ok (.str (pyTypeName (presolve st target))), st)
    | .importS modules filename =>
      (.ok .null, { st with modules := aset st.modules filename modules })
    | .exportS _ => (.ok .null, st)

/-- `for stmt in node.body: self.visit(stmt)` (result discarded). -/
def pexecSeq : Nat → St → List Stmt → (Except RErr Unit) × St
  | _, st, [] => (.ok (), st)
  | 0, st, _ :: _ => (.error .outOfFuel, st)
  | fuel + 1, st, s :: rest =>
    match pvisit fuel st s with
    | (.error e, st1) => (.error e, st1)
    | (.ok _, st1) => pexecSeq fuel st1 rest

/-- The function-body loop of `visit_FunctionCallNode`: keep the last
result that was not `None`. -/
def pbodyLoop : Nat → St → List Stmt → Value → (Except RErr Value) × St
  | _, st, [], ret => (.ok ret, st)
  | 0, st, _ :: _, _ => (.error .outOfFuel, st)
  | fuel + 1, st, s :: rest, ret =>
    match pvisit fuel st s with
    | (.error e, st1) => (.error e, st1)
    | (.ok res, st1) =>
      pbodyLoop fuel st1 rest (match res with | .null => ret | r => r)

/-- `for _ in range(times)` of `visit_RepeatNode`. -/
def prepeatLoop : Nat → St → Nat → List Stmt → (Except RErr Unit) × St
  | _, st, 0, _ => (.ok (), st)
  | 0, st, _ + 1, _ => (.error .outOfFuel, st)
  | fuel + 1, st, n + 1, body =>
    match pexecSeq fuel st body with
    | (.error e, st1) => (.error e, st1)
    | (.ok _, st1) => prepeatLoop fuel st1 n body

/-- `while not condition` of `visit_DoUntilNode` (pre-test loop). -/
def pdoUntilLoop : Nat → St → Value → List Stmt → (Except RErr Unit) × St
  | 0, st, _, _ => (.error .outOfFuel, st)
  | fuel + 1, st, condition, body =>
    if pCondition st condition then (.ok (), st)
    else
      match pexecSeq fuel st body with
      | (.error e, st1) => (.error e, st1)
      | (.ok _, st1) => pdoUntilLoop fuel st1 condition body

/-- The item loop of `visit_ForEachNode`: bind the loop variable (through
`_set_var`, which resolves), then run the body. -/
def pforLoop : Nat → St → Name → List Value → List Stmt → (Except RErr Unit) × St
  | _, st, _, [], _ => (.ok (), st)
  | 0, st, _, _ :: _, _ => (.error .outOfFuel, st)
  | fuel + 1, st, varName, item :: rest, body =>
    let st1 := psetVar st varName item
    match pexecSeq fuel st1 body with
    | (.error e, st2) => (.error e, st2)
    | (.ok _, st2) => pforLoop fuel st2 varName rest body

end

/-- `Interpreter.execute`: visit every top-level node in order. -/
def pexecute (fuel : Nat) (st : St) (ast : List Stmt) :
    (Except RErr Unit) × St :=
  pexecSeq fuel st ast

/-! ## The caml/caml-code evaluator (caml/caml-code/interpreter.py) -/

/-- The complete set of callable module globals of the caml-code
interpreter module: the standard builtin callables brought in by
`from builtins import *` (see `builtinsStarCallables` — the site
quitters `exit`/`quit` and printers `copyright`/`credits`/`license`
included), the AST classes of the caml copy of nodes.py (which adds
`ButtonNode`), and the `Interpreter` class.  The imported modules
`math`, `random`, `os` and `tk` are not callable.  Applying any of
these callables constructs values outside this model, so the embedding
reports `unmodelled`; claims about the unmatched-name fallback
hypothesise that the name is not in this table. -/
def camlCallableNames : List String :=
  builtinsStarCallables ++ nodeClassNames ++ ["ButtonNode", "Interpreter"]

/-- `globals().get(node.name)` + `callable(...)` in the caml-code copy. -/
def camlBuiltin : Name → Option (List Value → St → (Except RErr Value) × St)
  | some s =>
    if camlCallableNames.contains s then
      some (fun _ st => (.error (.unmodelled "library callable"), st))
    else none
  | none => none

/-- Python falsiness of an optional string (`not stmt.parent`). -/
def nameFalsy : Name → Bool
  | none => true
  | some s => s == ""

/-- The `visit_ObjectSetPropNode` store logic of the caml copy (the tk
`title`/`bg`/`text` configuration calls act on external widgets and have
no footprint in this model beyond the property store). -/
def camlSetProp (st : St) (objectName : Name) (propName : String)
    (value : Value) : St :=
  let obj := (alookup st.objects objectName).getD ⟨[], [], false⟩
  let obj1 : Obj := { obj with
    properties := aset obj.properties propName (presolve st value) }
  { st with objects := aset st.objects objectName obj1 }

mutual

/-- One dispatch step of the caml-code `Interpreter.visit`.  Behaviour
matches `pvisit` except where the two interpreter copies differ:
`visit_DisplayNode` evaluates call-valued expressions and returns its
output, the arithmetic updates check both operands, the unknown-name
fallback of `visit_FunctionCallNode` returns the bare name, ForEach uses
a `in self.lists` membership test, objects drive the GUI registries, and
`visit_GetCaseNode` defaults to lower-case. -/
def cvisit : Nat → St → Stmt → (Except RErr Value) × St
  | 0, st, _ => (.error .outOfFuel, st)
  | fuel + 1, st, stmt =>
    match stmt with
    | .display value bold =>
      -- visit_DisplayNode: resolve or evaluate, print, and RETURN out.
      (match value with
       | .val v =>
         let val := presolve st v
         let outS := if bold then "**" ++ pyStr val ++ "**" else pyStr val
         let outV : Value := if bold then .str outS else val
         (.ok outV, { st with console := st.console ++ [.outLine outS] })
       | .call n cargs =>
         match cvisit fuel st (.functionCall n cargs) with
         | (.error e, st1) => (.error e, st1)
         | (.ok val, st1) =>
           let outS := if bold then "**" ++ pyStr val ++ "**" else pyStr val
           let outV : Value := if bold then .str outS else val
           (.ok outV, { st1 with console := st1.console ++ [.outLine outS] }))
    | .interact prompt bold =>
      let p := presolve st prompt
      let ptext := (if bold then "**" ++ pyStr p ++ "**" else pyStr p) ++ ": "
      let st1 : St := { st with console := st.console ++ [.promptStr ptext] }
      (match st1.inputs with
       | .line s :: rest => (.ok (.str s), { st1 with inputs := rest })
       | .interrupt :: rest => (.ok (.str ""), { st1 with inputs := rest })
       | [] => (.error .eofError, st1))
    | .assign varName value => (.ok .null, psetVar st varName value)
    | .set varName value => (.ok .null, psetVar st varName value)
    | .change varName value => (.ok .null, psetVar st varName value)
    | .increase varName value =>
      let cur := pgetVar st varName
      let val := presolve st value
      if cur.isNum && val.isNum then
        match pyAdd cur val with
        | .ok v => (.ok .null, psetVar st varName v)
        | .error e => (.error e, st)
      else (.error (.typeError "Increase supports numeric types only"), st)
    | .decrease varName value =>
      let cur := pgetVar st varName
      let val := presolve st value
      if cur.isNum && val.isNum then
        match pySub cur val with
        | .ok v => (.ok .null, psetVar st varName v)
        | .error e => (.error e, st)
      else (.error (.typeError "Decrease supports numeric types only"), st)
    | .multiply varName value =>
      let cur := pgetVar st varName
      let val := presolve st value
      if cur.isNum && val.isNum then
        match pyMul cur val with
        | .ok v => (.ok .null, psetVar st varName v)
        | .error e => (.error e, st)
      else (.error (.typeError "Multiply supports numeric types only"), st)
    | .divide varName value =>
      let cur := pgetVar st varName
      let val := presolve st value
      if cur.isNum && val.isNum then
        match pyDiv cur val with
        | .ok v => (.ok .null, psetVar st varName v)
        | .error e => (.error e, st)
      else (.error (.typeError "Divide supports numeric types only"), st)
    | .exponentiate varName value =>
      let cur := pgetVar st varName
      let val := presolve st value
      if cur.isNum && val.isNum then
        match pyPow cur val with
        | .ok v => (.ok .null, psetVar st varName v)
        | .error e => (.error e, st)
      else (.error (.typeError "Exponentiate supports numeric types only"), st)
    | .blockVar varName =>
      (.ok .null, { st with vars := adel st.vars varName })
    | .functionDef name args body =>
      (.ok .null,
       { st with functions := aset st.functions name ⟨name, args, body⟩ })
    | .functionCall name args =>
      -- visit_FunctionCallNode (caml-code, lines 114-142): defined
      -- function, else module-global callable, else RETURN THE NAME.
      (match alookup st.functions name with
       | some fd =>
         let oldVars := st.vars
         let localVars := (fd.args.zip args).map
           (fun p => ((some p.1 : Name), presolve st p.2))
         let merged := localVars.foldl (fun m p => aset m p.1 p.2) st.vars
         let st1 := { st with vars := merged,
                              callStack := st.callStack ++ [fd.name] }
         match cbodyLoop fuel st1 fd.body .null with
         | (.error e, st2) => (.error e, st2)
         | (.ok ret, st2) =>
           (.ok ret, { st2 with callStack := st2.callStack.dropLast,
                                vars := oldVars })
       | none =>
         match camlBuiltin name with
         | some bf => bf (args.map (presolve st)) st
         | none =>
           (.ok (match name with | some s => .str s | none => .null), st))
    | .functionAbbrev originalName newName =>
      (match alookup st.functions originalName with
       | some fd => (.ok .null,
           { st with functions := aset st.functions newName fd })
       | none => (.ok .null, st))
    | .ifS condition body =>
      if pCondition st condition then
        match cexecSeq fuel st body with
        | (.error e, st1) => (.error e, st1)
        | (.ok _, st1) => (.ok .null, st1)
      else (.ok .null, st)
    | .orIf condition body =>
      if pCondition st condition then
        match cexecSeq fuel st body with
        | (.error e, st1) => (.error e, st1)
        | (.ok _, st1) => (.ok .null, st1)
      else (.ok .null, st)
    | .otherwise body =>
      (match cexecSeq fuel st body with
       | (.error e, st1) => (.error e, st1)
       | (.ok _, st1) => (.ok .null, st1))
    | .repeatN times body =>
      (match pyToInt (presolve st times) with
       | .error e => (.error e, st)
       | .ok t =>
         match crepeatLoop fuel st t.toNat body with
         | (.error e, st1) => (.error e, st1)
         | (.ok _, st1) => (.ok .null, st1))
    | .doUntil condition body =>
      (match cdoUntilLoop fuel st condition body with
       | (.error e, st1) => (.error e, st1)
       | (.ok _, st1) => (.ok .null, st1))
    | .forEach varName iterable body =>
      -- visit_ForEachNode (caml-code, lines 176-187):
      -- `if node.iterable in self.lists` else `_get_var(..) or []`.
      let chosen : Value :=
        match alookup st.lists iterable with
        | some l => .list l
        | none =>
          let gv := pgetVar st iterable
          if pyBool gv then gv else .list []
      (match chosen with
       | .list items =>
         (match cforLoop fuel st varName items body with
          | (.error e, st1) => (.error e, st1)
          | (.ok _, st1) => (.ok .null, st1))
       | _ => (.error (.typeError "ForEach expects a list"), st))
    | .listDecl name elements =>
      (.ok .null,
       { st with lists := aset st.lists name (elements.map (presolve st)) })
    | .listAdd listName value =>
      let val := presolve st value
      let ls0 := if (alookup st.lists listName).isSome then st.lists
                 else aset st.lists listName []
      let cur := (alookup ls0 listName).getD []
      (.ok .null, { st with lists := aset ls0 listName (cur ++ [val]) })
    | .listRemove listName value =>
      let val := presolve st value
      (match alookup st.lists listName with
       | some l =>
         if l.any (fun x => pyEq val x) then
           (.ok .null,
            { st with lists := aset st.lists listName (pyRemoveFirst val l) })
         else (.ok .null, st)
       | none => (.ok .null, st))
    | .dictDecl name elements =>
      let d := elements.foldl (fun d p => aset d p.1 (presolve st p.2)) []
      (.ok .null, { st with dicts := aset st.dicts name d })
    | .dictAdd dictName key value =>
      let val := presolve st value
      let ds0 := if (alookup st.dicts dictName).isSome then st.dicts
                 else aset st.dicts dictName []
      let cur := (alookup ds0 dictName).getD []
      (.ok .null, { st with dicts := aset ds0 dictName (aset cur key val) })
    | .dictRemove dictName key =>
      (match alookup st.dicts dictName with
       | some d =>
         if (alookup d key).isSome then
           (.ok .null, { st with dicts := aset st.dicts dictName (adel d key) })
         else (.ok .null, st)
       | none => (.ok .null, st))
    | .objectDecl name body isWindow =>
      -- visit_ObjectNode (caml-code): create-if-absent; a window object
      -- registers a tk window (the first one is the root) and defaults
      -- the parent of parentless ButtonNode children to itself.  The
      -- source writes that default into the child AST node before
      -- visiting it; this embedding applies the same rewrite to the
      -- statement it visits.
      let st1 : St :=
        if (alookup st.objects name).isSome then st
        else { st with objects := aset st.objects name ⟨[], [], false⟩ }
      let st2 : St :=
        if isWindow then
          let stMark : St := { st1 with guiRootCreated := true }
          let stWin : St :=
            if stMark.guiRoot then
              { stMark with guiWindows :=
                  if stMark.guiWindows.contains name then stMark.guiWindows
                  else stMark.guiWindows ++ [name] }
            else
              { stMark with guiRoot := true,
                            guiWindows :=
                  if stMark.guiWindows.contains name then stMark.guiWindows
                  else stMark.guiWindows ++ [name] }
          let obj : Obj := (alookup stWin.objects name).getD ⟨[], [], false⟩
          { stWin with
            objects := aset stWin.objects name ({ obj with tkWindow := true }) }
        else st1
      let body2 := body.map (fun s =>
        match s with
        | .button bn bp bb =>
          if nameFalsy bp && isWindow then .button bn name bb else s
        | _ => s)
      (match cexecSeq fuel st2 body2 with
       | (.error e, st3) => (.error e, st3)
       | (.ok _, st3) => (.ok .null, st3))
    | .objectSetProp objectName propName value =>
      (.ok .null, camlSetProp st objectName propName value)
    | .objectChangeProp objectName propName value =>
      (match alookup st.objects objectName with
       | some obj =>
         if (alookup obj.properties propName).isSome then
           let obj1 : Obj := { obj with
             properties := aset obj.properties propName (presolve st value) }
           let st1 : St :=
             { st with objects := aset st.objects objectName obj1 }
           -- then `self.visit_ObjectSetPropNode(node)` runs again
           (.ok .null, camlSetProp st1 objectName propName value)
         else (.ok .null, st)
       | none => (.ok .null, st))
    | .objectDeleteProp objectName propName =>
      (match alookup st.objects objectName with
       | some obj =>
         if (alookup obj.properties propName).isSome then
           let obj1 : Obj := { obj with
             properties := adel obj.properties propName }
           (.ok .null, { st with objects := aset st.objects objectName obj1 })
         else (.ok .null, st)
       | none => (.ok .null, st))
    | .objectBlockProp objectName propName =>
      (match alookup st.objects objectName with
       | some obj =>
         if (alookup obj.properties propName).isSome then
           let obj1 : Obj := { obj with
             properties := aset obj.properties propName .null }
           (.ok .null, { st with objects := aset st.objects objectName obj1 })
         else (.ok .null, st)
       | none => (.ok .null, st))
    | .objectAddFunction objectName funcName funcArgs funcBody =>
      let obj := (alookup st.objects objectName).getD ⟨[], [], false⟩
      let obj1 : Obj := { obj with
        functions := aset obj.functions funcName ⟨funcName, funcArgs, funcBody⟩ }
      (.ok .null, { st with objects := aset st.objects objectName obj1 })
    | .button name parent body =>
      -- visit_ButtonNode: requires a truthy parent that is a registered
      -- window; the tk.Button itself is external, its name is logged.
      if nameFalsy parent then
        (.error (.buttonError "Button has no parent window specified"), st)
      else if !(st.guiWindows.contains parent) then
        (.error (.buttonError "Parent window not found"), st)
      else
        let st1 : St := { st with guiButtons := st.guiButtons ++ [name] }
        (match cexecSeq fuel st1 body with
         | (.error e, st2) => (.error e, st2)
         | (.ok _, st2) => (.ok .null, st2))
    | .mathFunc funcName args =>
      pyMathFunc funcName (args.map (presolve st)) st
    | .fileOp req => pyFileOp req st
    | .getLength target => (.ok (.int (pyLenOr0 (presolve st target))), st)
    | .getCase target mode =>
      -- caml-code default mode: `node.mode or 'lower'`.
      let m := match mode with
        | some m => if m == "" then "lower" else m
        | none => "lower"
      (.ok (.str (pyCase (presolve st target) m)), st)
    | .getType target => (.ok (.str (pyTypeName (presolve st target))), st)
    | .importS modules filename =>
      (.ok .null, { st with modules := aset st.modules filename modules })
    | .exportS _ => (.ok .null, st)

def cexecSeq : Nat → St → List Stmt → (Except RErr Unit) × St
  | _, st, [] => (.ok (), st)
  | 0, st, _ :: _ => (.error .outOfFuel, st)
  | fuel + 1, st, s :: rest =>
    match cvisit fuel st s with
    | (.error e, st1) => (.error e, st1)
    | (.ok _, st1) => cexecSeq fuel st1 rest

def cbodyLoop : Nat → St → List Stmt → Value → (Except RErr Value) × St
  | _, st, [], ret => (.ok ret, st)
  | 0, st, _ :: _, _ => (.error .outOfFuel, st)
  | fuel + 1, st, s :: rest, ret =>
    match cvisit fuel st s with
    | (.error e, st1) => (.error e, st1)
    | (.ok res, st1) =>
      cbodyLoop fuel st1 rest (match res with | .null => ret | r => r)

def crepeatLoop : Nat → St → Nat → List Stmt → (Except RErr Unit) × St
  | _, st, 0, _ => (.ok (), st)
  | 0, st, _ + 1, _ => (.error .outOfFuel, st)
  | fuel + 1, st, n + 1, body =>
    match cexecSeq fuel st body with
    | (.error e, st1) => (.error e, st1)
    | (.ok _, st1) => crepeatLoop fuel st1 n body

def cdoUntilLoop : Nat → St → Value → List Stmt → (Except RErr Unit) × St
  | 0, st, _, _ => (.error .outOfFuel, st)
  | fuel + 1, st, condition, body =>
    if pCondition st condition then (.ok (), st)
    else
      match cexecSeq fuel st body with
      | (.error e, st1) => (.error e, st1)
      | (.ok _, st1) => cdoUntilLoop fuel st1 condition body

def cforLoop : Nat → St → Name → List Value → List Stmt → (Except RErr Unit) × St
  | _, st, _, [], _ => (.ok (), st)
  | 0, st, _, _ :: _, _ => (.error .outOfFuel, st)
  | fuel + 1, st, varName, item :: rest, body =>
    let st1 := psetVar st varName item
    match cexecSeq fuel st1 body with
    | (.error e, st2) => (.error e, st2)
    | (.ok _, st2) => cforLoop fuel st2 varName rest body

end

/-- `Interpreter.execute` of the caml copy: run the statements; the
trailing tk `mainloop` only blocks on external GUI events. -/
def cexecute (fuel : Nat) (st : St) (ast : List Stmt) :
    (Except RErr Unit) × St :=
  cexecSeq fuel st ast

/-! ## The python_code parser (python_code/parser.py): per-line helpers

Each helper embeds one `parse_*` method.  In the source every helper
consumes the current line itself via `self._consume()`; here the
surrounding `parseStatement` hands it that line's token list, which is
the same control flow with the cursor made explicit. -/

/-- Kind test for one token. -/
def hasKind (ts : List Token) (k : String) : Bool :=
  ts.any (fun t => t.kind == k)

/-- The Python value of an IDENTIFIER/STRING token as a name slot. -/
def identNameOf (t : Token) : Name :=
  match t.value with
  | .str s => some s
  | _ => none

/-- First token whose kind is in `ks`, as its value. -/
def firstValueOfKinds (ts : List Token) (ks : List String) : Option Value :=
  (ts.find? (fun t => ks.contains t.kind)).map (fun t => t.value)

/-- Tokens after the first token of kind `k` (Python
`tokens[types.index(k) + 1:]`). -/
def splitAtKind (k : String) : List Token → Option (List Token)
  | [] => none
  | t :: rest => if t.kind == k then some rest else splitAtKind k rest

/-- Scan for `TO` immediately followed by an IDENTIFIER; the identifier
text (the assignment-target extraction of `parse_variable_statement`). -/
def findToIdent : List Token → Name
  | t1 :: t2 :: rest =>
    if t1.kind == "TO" && t2.kind == "IDENTIFIER" then identNameOf t2
    else findToIdent (t2 :: rest)
  | _ => none

/-- Scan for a marker kind followed by a token of an allowed kind; that
token's value. -/
def findMarkerValue (marker : String) (ks : List String) :
    List Token → Option Value
  | t1 :: t2 :: rest =>
    if t1.kind == marker && ks.contains t2.kind then some t2.value
    else findMarkerValue marker ks (t2 :: rest)
  | _ => none

/-- Scan for a marker kind followed by any token; that token's value. -/
def findMarkerAny (marker : String) : List Token → Option Value
  | t1 :: t2 :: rest =>
    if t1.kind == marker then some t2.value
    else findMarkerAny marker (t2 :: rest)
  | _ => none

/-- Python `str.isidentifier()` (ASCII fragment, all this lexer emits). -/
def pyIsIdentifier (s : String) : Bool :=
  match s.data with
  | [] => false
  | c :: rest => (c.isAlpha || c == '_') && rest.all (fun d => d.isAlphanum || d == '_')

/-- The literal/value kinds of `parse_display`. -/
def displayKinds : List String :=
  ["STRING", "INTEGER", "FLOAT", "BOOLEAN", "NULL", "IDENTIFIER"]

/-- `parse_display`. -/
def parseDisplay (ts : List Token) : Stmt :=
  let bold := hasKind ts "PLUS_BOLD"
  .display (.val ((firstValueOfKinds ts displayKinds).getD .null)) bold

/-- `parse_interact`. -/
def parseInteract (ts : List Token) : Stmt :=
  let bold := hasKind ts "PLUS_BOLD"
  .interact ((firstValueOfKinds ts ["STRING", "IDENTIFIER"]).getD .null) bold

/-- `parse_variable_statement`: the shared helper for Assign / Set /
Change / arithmetic updates / Block. -/
def parseVariableStatement (ts : List Token) : Option Stmt :=
  let types := ts.map (fun t => t.kind)
  if types.contains "ASSIGN" then
    let afterA := (splitAtKind "ASSIGN" ts).getD []
    let val : Option Value := firstValueOfKinds afterA displayKinds
    let var : Name := findToIdent ts
    let pair : Name × Value :=
      match var, val with
      | none, some (.str s) =>
        if pyIsIdentifier s then (some s, .null) else (none, .str s)
      | _, _ => (var, val.getD .null)
    some (.assign pair.1 pair.2)
  else if types.contains "SET" && !(types.contains "VARIABLE") then
    match splitAtKind "IDENTIFIER" ts, ts.find? (fun t => t.kind == "IDENTIFIER") with
    | some after, some tId =>
      let val := findMarkerValue "TO"
        ["STRING", "INTEGER", "FLOAT", "IDENTIFIER", "BOOLEAN", "NULL"] after
      some (.set (identNameOf tId) (val.getD .null))
    | _, _ => some (.set none .null)
  else if types.contains "CHANGE" then
    match splitAtKind "IDENTIFIER" ts, ts.find? (fun t => t.kind == "IDENTIFIER") with
    | some after, some tId =>
      some (.change (identNameOf tId) ((findMarkerAny "TO" after).getD .null))
    | _, _ => some (.change none .null)
  else if types.contains "INCREASE" || types.contains "DECREASE"
       || types.contains "MULTIPLY" || types.contains "DIVIDE"
       || types.contains "EXPONENTIATE" then
    let op :=
      if types.contains "INCREASE" then "INCREASE"
      else if types.contains "DECREASE" then "DECREASE"
      else if types.contains "MULTIPLY" then "MULTIPLY"
      else if types.contains "DIVIDE" then "DIVIDE"
      else "EXPONENTIATE"
    let after := (splitAtKind op ts).getD []
    let var : Name :=
      match after with
      | t :: _ => if t.kind == "IDENTIFIER" then identNameOf t else none
      | [] => none
    let val := ((findMarkerAny "BY" after).getD .null)
    some (if op == "INCREASE" then .increase var val
          else if op == "DECREASE" then .decrease var val
          else if op == "MULTIPLY" then .multiply var val
          else if op == "DIVIDE" then .divide var val
          else .exponentiate var val)
  else if types.contains "BLOCK" then
    match ts.find? (fun t => t.kind == "IDENTIFIER") with
    | some t => some (.blockVar (identNameOf t))
    | none => none
  else none

/-- `parse_list`: note that the element loop also collects the list name
itself (it matches the IDENTIFIER filter). -/
def parseList (ts : List Token) : Stmt :=
  let name := (ts.find? (fun t => t.kind == "IDENTIFIER")).bind identNameOf
  let elements := ts.filterMap (fun t =>
    if ["INTEGER", "FLOAT", "STRING", "IDENTIFIER", "BOOLEAN"].contains t.kind
    then some t.value else none)
  .listDecl name elements

/-- `parse_list_add`: first literal-ish token is the value, last
identifier is the list name. -/
def parseListAdd (ts : List Token) : Stmt :=
  let val := firstValueOfKinds ts ["INTEGER", "FLOAT", "STRING", "IDENTIFIER", "BOOLEAN"]
  let idents := ts.filterMap (fun t =>
    if t.kind == "IDENTIFIER" then identNameOf t else none)
  .listAdd (idents.getLast?) (val.getD .null)

/-- First loop of `parse_function_call`: find the call name (and, for the
`name(args)` shape, a first round of arguments). -/
def fcScan (headIsIdent : Bool) (secondIsParen : Option Bool)
    (tailToks : List Token) : List Token → Name × List Value
  | [] => (none, [])
  | t :: rest =>
    if t.kind == "STRING" then (identNameOf t, [])
    else if t.kind == "IDENTIFIER" then
      let condB := match secondIsParen with
        | some b => !b
        | none => false
      if !headIsIdent || condB then (identNameOf t, [])
      else
        (identNameOf t,
         tailToks.filterMap (fun u =>
           if ["INTEGER", "FLOAT", "STRING", "IDENTIFIER", "BOOLEAN"].contains u.kind
           then some u.value else none))
    else fcScan headIsIdent secondIsParen tailToks rest

/-- `parse_function_call`: the second loop appends every
INTEGER/FLOAT/STRING/BOOLEAN token (including the STRING that named the
function, a quirk preserved from the source). -/
def parseFunctionCall (ts : List Token) : Stmt :=
  let headIsIdent := match ts with
    | t :: _ => t.kind == "IDENTIFIER"
    | [] => false
  let secondIsParen := match ts with
    | _ :: t :: _ => some (t.kind == "(")
    | _ => none
  let (name, args1) := fcScan headIsIdent secondIsParen (ts.drop 1) ts
  let args2 := ts.filterMap (fun t =>
    if ["INTEGER", "FLOAT", "STRING", "BOOLEAN"].contains t.kind
    then some t.value else none)
  .functionCall name (args1 ++ args2)

/-- `parse_function_abbrev`: first STRING/IDENTIFIER is the original
name, every later one overwrites the new name. -/
def abbrevScan : List Token → Name → Name → Name × Name
  | [], o, n => (o, n)
  | t :: rest, o, n =>
    let p1 : Name × Name :=
      if t.kind == "STRING" then
        match o with
        | none => (identNameOf t, n)
        | some _ => (o, identNameOf t)
      else (o, n)
    let p2 : Name × Name :=
      if t.kind == "IDENTIFIER" then
        match p1.1 with
        | none => (identNameOf t, p1.2)
        | some _ => (p1.1, identNameOf t)
      else p1
    abbrevScan rest p2.1 p2.2

def parseFunctionAbbrev (ts : List Token) : Stmt :=
  let p := abbrevScan ts none none
  .functionAbbrev p.1 p.2

/-- `parse_math_func`: the first recognised math kind (guaranteed present
by the dispatch) and all INTEGER/FLOAT/IDENTIFIER values. -/
def parseMathFunc (ts : List Token) : Stmt :=
  let fname := ((ts.find? (fun t =>
    ["SQUARE", "SQUAREROOT", "GCD", "LCM", "RANDOM_INT"].contains t.kind)).map
      (fun t => t.kind)).getD ""
  let args := ts.filterMap (fun t =>
    if ["INTEGER", "FLOAT", "IDENTIFIER"].contains t.kind
    then some t.value else none)
  .mathFunc fname args

/-- `parse_file`: last FILE_* kind and last STRING win; optional second
and third strings are text / find-replace payloads; `old_name` and
`new_name` are never set by the parser. -/
def parseFile (ts : List Token) : Stmt :=
  let action : Name := ts.foldl
    (fun acc t => if strStartsWith t.kind "FILE_" then some t.kind else acc) none
  let strs := ts.filterMap (fun t =>
    if t.kind == "STRING" then
      match t.value with
      | .str s => some s
      | _ => none
    else none)
  let filename := strs.getLast?
  let text := if strs.length ≥ 2 then strs.get? 1 else none
  let atFirst := hasKind ts "AT_FIRST"
  let fr : Option String × Option String :=
    if hasKind ts "FILE_FIND" && hasKind ts "FILE_REPLACE" && strs.length ≥ 3
    then (strs.get? 1, strs.get? 2) else (none, none)
  .fileOp ⟨action, filename, text, atFirst, fr.1, fr.2, none, none⟩

/-- `parse_getter`: first IDENTIFIER/STRING target, last mode word wins,
then kind priority length → case → type. -/
def parseGetter (ts : List Token) : Option Stmt :=
  let target := (firstValueOfKinds ts ["IDENTIFIER", "STRING"]).getD .null
  let mode : Option String := ts.foldl
    (fun acc t =>
      match t.value with
      | .str s =>
        if ["upper", "lower", "camel", "snake", "pascal"].contains (strLower s)
        then some (strLower s) else acc
      | _ => acc) none
  if hasKind ts "GET_LENGTH" then some (.getLength target)
  else if hasKind ts "GET_CASE" then some (.getCase target mode)
  else if hasKind ts "GET_TYPE" then some (.getType target)
  else none

/-- `parse_import`: all identifiers are module names, the last STRING is
the filename. -/
def parseImport (ts : List Token) : Stmt :=
  let modules := ts.filterMap (fun t =>
    if t.kind == "IDENTIFIER" then
      match t.value with | .str s => some s | _ => none
    else none)
  let filename := (ts.filterMap (fun t =>
    if t.kind == "STRING" then
      match t.value with | .str s => some s | _ => none
    else none)).getLast?
  .importS modules filename

def parseExport (ts : List Token) : Stmt :=
  .exportS (ts.filterMap (fun t =>
    if t.kind == "IDENTIFIER" then
      match t.value with | .str s => some s | _ => none
    else none))

/-- Python `==` on tokens (namedtuple equality: kinds as strings, values
with numeric cross-type equality), for `tokens.index(tok)`. -/
def tokenPyEq (a b : Token) : Bool :=
  a.kind == b.kind && pyEq a.value b.value

/-- `tokens.index(tok)`: index of the first `==`-equal token. -/
def idxOfTok (ts : List Token) (t : Token) : Nat :=
  match ts with
  | [] => 0
  | u :: rest => if tokenPyEq u t then 0 else idxOfTok rest t + 1

/-- `parse_dictionary`: the first identifier is the dict name; every
identifier opens a key whose value is the next literal-ish token after
that identifier's FIRST `==`-equal occurrence (the `tokens.index(tok)`
quirk of the source). -/
def parseDictionary (ts : List Token) : Stmt :=
  let name := (ts.find? (fun t => t.kind == "IDENTIFIER")).bind identNameOf
  let elements := ts.foldl
    (fun (acc : List (String × Value)) t =>
      if t.kind == "IDENTIFIER" then
        match t.value with
        | .str key =>
          let rest := ts.drop (idxOfTok ts t + 1)
          match firstValueOfKinds rest
            ["STRING", "INTEGER", "FLOAT", "BOOLEAN", "IDENTIFIER"] with
          | some v => aset acc key v
          | none => acc
        | _ => acc
      else acc) []
  .dictDecl name elements

/-- Field extraction of `parse_for_each`: first identifier is the loop
variable; every `IN` followed by an identifier overwrites the iterable
(no break in the source). -/
def forEachScan (ts : List Token) : Name × Name :=
  let varName := (ts.find? (fun t => t.kind == "IDENTIFIER")).bind identNameOf
  let iterable := go ts none
  (varName, iterable)
where
  go : List Token → Name → Name
    | t1 :: t2 :: rest, acc =>
      if t1.kind == "IN" && t2.kind == "IDENTIFIER" then
        go (t2 :: rest) (identNameOf t2)
      else go (t2 :: rest) acc
    | _, acc => acc

/-- Condition extraction of `parse_if` / `parse_or_if`. -/
def parseCondValue (ts : List Token) : Value :=
  (firstValueOfKinds ts displayKinds).getD .null

/-- `times` extraction of `parse_repeat`. -/
def parseRepeatTimes (ts : List Token) : Value :=
  (firstValueOfKinds ts ["INTEGER", "IDENTIFIER"]).getD .null

/-! ## The python_code parser: statement dispatch and block collection -/

mutual

/-- `Parser.parse_statement`: dispatch over the fixed ordered priority
list of "does this token kind appear in the line" tests (parser.py lines
42-131).  Returns `none` only on fuel exhaustion, otherwise the parsed
node (or `none` for a silently skipped line) and the remaining lines. -/
def parseStatement : Nat → List Line → Option (Option Stmt × List Line)
  | 0, _ => none
  | fuel + 1, lines =>
    match lines with
    | [] => some (none, [])
    | line :: rest =>
    let ts := line.toks
    if ts.isEmpty then some (none, rest)
    else if hasKind ts "DISPLAY" then some (some (parseDisplay ts), rest)
    else if hasKind ts "INTERACT" then some (some (parseInteract ts), rest)
    else if hasKind ts "CREATE_LIST" then some (some (parseList ts), rest)
    else if hasKind ts "ADD" && ts.any (fun t =>
        t.kind == "IDENTIFIER" &&
        (match t.value with | .str s => strLower s == "list" | _ => false)) then
      some (some (parseListAdd ts), rest)
    else if hasKind ts "FOREACH" then
      -- parse_for_each: fields from this line, body from collect_block
      -- with the HEADER indent as parent.
      match collectBlock fuel (some line.indent) line.indent rest with
      | none => none
      | some (body, rest1) =>
        let p := forEachScan ts
        some (some (.forEach p.1 p.2 body), rest1)
    else if hasKind ts "ASSIGN" || hasKind ts "SET" || hasKind ts "CHANGE"
         || hasKind ts "INCREASE" || hasKind ts "DECREASE"
         || hasKind ts "MULTIPLY" || hasKind ts "DIVIDE"
         || hasKind ts "EXPONENTIATE" || hasKind ts "BLOCK" then
      some (parseVariableStatement ts, rest)
    else if hasKind ts "DEFINE_FUNCTION" then
      -- parse_function_def: the name is the first STRING/IDENTIFIER; the
      -- argument list is never extracted (args = []); the block is
      -- collected with the NEXT line's indent as parent (the source reads
      -- `self.current()` after consuming the header), so the body is
      -- always empty whenever a next line exists.
      let name := (ts.find? (fun t =>
        t.kind == "STRING" || t.kind == "IDENTIFIER")).bind identNameOf
      let parent := match rest with
        | l1 :: _ => l1.indent
        | [] => 0
      match collectBlock fuel (some parent) line.indent rest with
      | none => none
      | some (body, rest1) => some (some (.functionDef name [] body), rest1)
    else if hasKind ts "CALL_FUNCTION"
         || (match ts with
             | t0 :: t1 :: _ => t0.kind == "IDENTIFIER" && t1.kind == "("
             | _ => false) then
      some (some (parseFunctionCall ts), rest)
    else if hasKind ts "ABBREV_FUNCTION" then
      some (some (parseFunctionAbbrev ts), rest)
    else if hasKind ts "IF" then
      match collectBlock fuel (some line.indent) line.indent rest with
      | none => none
      | some (body, rest1) =>
        some (some (.ifS (parseCondValue ts) body), rest1)
    else if hasKind ts "ORIF" then
      match collectBlock fuel (some line.indent) line.indent rest with
      | none => none
      | some (body, rest1) =>
        some (some (.orIf (parseCondValue ts) body), rest1)
    else if hasKind ts "OTHERWISE" then
      match collectBlock fuel (some line.indent) line.indent rest with
      | none => none
      | some (body, rest1) => some (some (.otherwise body), rest1)
    else if hasKind ts "REPEAT" then
      -- parse_repeat passes parent_indent = None; _collect_block then
      -- reads the indent of the line before the cursor, i.e. this header.
      match collectBlock fuel none line.indent rest with
      | none => none
      | some (body, rest1) =>
        some (some (.repeatN (parseRepeatTimes ts) body), rest1)
    else if hasKind ts "DOUNTIL" then
      match collectBlock fuel (some line.indent) line.indent rest with
      | none => none
      | some (body, rest1) =>
        some (some (.doUntil (parseCondValue ts) body), rest1)
    else if hasKind ts "SQUARE" || hasKind ts "SQUAREROOT" || hasKind ts "GCD"
         || hasKind ts "LCM" || hasKind ts "RANDOM_INT" then
      some (some (parseMathFunc ts), rest)
    else if ts.any (fun t => strStartsWith t.kind "FILE") then
      some (some (parseFile ts), rest)
    else if hasKind ts "GET_LENGTH" || hasKind ts "GET_CASE"
         || hasKind ts "GET_TYPE" then
      some (parseGetter ts, rest)
    else if hasKind ts "IMPORT" then some (some (parseImport ts), rest)
    else if hasKind ts "EXPORTS" then some (some (parseExport ts), rest)
    else if hasKind ts "CREATE_DICT" || hasKind ts "CONTAINING" then
      some (some (parseDictionary ts), rest)
    else some (none, rest)

/-- `Parser._collect_block` (parser.py lines 552-579).  `parentIndent =
none` models the `parent_indent is None` call from `parse_repeat`;
`prevIndent` is the indent of the line before the cursor, which the
source reads in that case.  An empty stream or a next line not strictly
deeper than the parent yields an empty block; otherwise the next line's
indent becomes the baseline for the collection loop. -/
def collectBlock : Nat → Option Nat → Nat → List Line →
    Option (List Stmt × List Line)
  | 0, _, _, _ => none
  | fuel + 1, parentIndent, prevIndent, lines =>
    match lines with
    | [] => some ([], [])
    | l :: rest =>
      let parent := parentIndent.getD prevIndent
      if l.indent ≤ parent then some ([], l :: rest)
      else collectLoop fuel l.indent (l :: rest)

/-- The `while self.pos < self.total and indent >= base_indent` loop of
`_collect_block`. -/
def collectLoop : Nat → Nat → List Line → Option (List Stmt × List Line)
  | 0, _, _ => none
  | fuel + 1, base, lines =>
    match lines with
    | [] => some ([], [])
    | l :: rest =>
      if l.indent < base then some ([], l :: rest)
      else
        match parseStatement fuel (l :: rest) with
        | none => none
        | some (nodeOpt, rest1) =>
          match collectLoop fuel base rest1 with
          | none => none
          | some (blk, rest2) =>
            some ((match nodeOpt with
                   | some n => n :: blk
                   | none => blk), rest2)

end

/-- `Parser.parse`: parse statements until the line stream is exhausted. -/
def pyParse : Nat → List Line → Option (List Stmt)
  | 0, _ => none
  | _ + 1, [] => some []
  | fuel + 1, l :: rest =>
    match parseStatement (fuel + 1) (l :: rest) with
    | none => none
    | some (nodeOpt, rest1) =>
      match pyParse fuel rest1 with
      | none => none
      | some ast =>
        some (match nodeOpt with
              | some n => n :: ast
              | none => ast)

/-! ## The python_code lexer (python_code/lexer.py) -/

/-- The keyword phrase table of python_code/lexer.py (`self.keywords`);
the source dict lists `'set'` twice, which Python collapses into one
entry. -/
def pyKeywords : List (String × String) :=
  [("display", "DISPLAY"), ("interact", "INTERACT"), ("plus bold", "PLUS_BOLD"),
   ("assign", "ASSIGN"), ("set variable", "SET"), ("set", "SET"),
   ("change", "CHANGE"), ("increase", "INCREASE"), ("decrease", "DECREASE"),
   ("multiply", "MULTIPLY"), ("divide", "DIVIDE"),
   ("exponentiate", "EXPONENTIATE"), ("block", "BLOCK"), ("to", "TO"),
   ("by", "BY"),
   ("define function", "DEFINE_FUNCTION"), ("which takes", "WHICH_TAKES"),
   ("which does", "WHICH_DOES"), ("call function", "CALL_FUNCTION"),
   ("call", "CALL_FUNCTION"), ("abbreviate function", "ABBREV_FUNCTION"),
   ("abbreviate", "ABBREV_FUNCTION"),
   ("if", "IF"), ("or if", "ORIF"), ("otherwise", "OTHERWISE"),
   ("repeat this", "REPEAT"), ("times", "TIMES"), ("do this until", "DOUNTIL"),
   ("for each", "FOREACH"), ("in", "IN"), ("do", "DO"),
   ("square of", "SQUARE"), ("squareroot of", "SQUAREROOT"), ("gcd(", "GCD"),
   ("lcm(", "LCM"), ("generate random int", "RANDOM_INT"),
   ("create list", "CREATE_LIST"), ("containing contents", "CONTENTS"),
   ("add", "ADD"), ("remove", "REMOVE"), ("create dictionary", "CREATE_DICT"),
   ("containing", "CONTAINING"),
   ("create object", "CREATE_OBJECT"), ("delete", "DELETE"),
   ("add function", "ADD_FUNCTION"),
   ("create new file", "FILE_CREATE"), ("delete file", "FILE_DELETE"),
   ("write", "FILE_WRITE"), ("find", "FILE_FIND"), ("replace", "FILE_REPLACE"),
   ("rename file", "FILE_RENAME"), ("access file", "FILE_ACCESS"),
   ("at first line", "AT_FIRST"),
   ("get length of", "GET_LENGTH"), ("get case of", "GET_CASE"),
   ("get data type of", "GET_TYPE"), ("get data type", "GET_TYPE"),
   ("import", "IMPORT"), ("exports are", "EXPORTS"), ("exports", "EXPORTS"),
   ("true", "BOOLEAN"), ("false", "BOOLEAN"), ("null", "NULL"),
   ("undefined", "NULL"),
   ("and", "AND"), ("or", "OR"), ("except", "EXCEPT"),
   ("is equal to", "EQ"), ("is greater than", "GT"), ("is less than", "LT"),
   ("==", "EQSYM"), ("!==", "NEQSYM"), ("!=", "NEQSYM"), ("~==", "CLOSEEST"),
   ("~", "ESTIMATE")]

def pyKeyword (s : String) : Option String := alookup pyKeywords s

/-- `text.replace('\r\n','\n').replace('\r','\n')`. -/
def normalizeNl : List Char → List Char
  | [] => []
  | '\r' :: '\n' :: rest => '\n' :: normalizeNl rest
  | '\r' :: rest => '\n' :: normalizeNl rest
  | c :: rest => c :: normalizeNl rest

/-- Content scan of the string-hiding regex `"(?:\\.|[^"\\])*"`: from the
characters after an opening quote, the match content (with escapes kept
verbatim) and the characters after the closing quote, or `none` when the
regex cannot match at this quote. -/
def scanHideString : Nat → List Char → Option (List Char × List Char)
  | 0, _ => none
  | _ + 1, [] => none
  | fuel + 1, c :: rest =>
    if c == '"' then some ([], rest)
    else if c == '\\' then
      match rest with
      | [] => none
      | d :: rest2 =>
        match scanHideString fuel rest2 with
        | some (content, rest3) => some ('\\' :: d :: content, rest3)
        | none => none
    else
      match scanHideString fuel rest with
      | some (content, rest3) => some (c :: content, rest3)
      | none => none

/-- The string-hiding pass of `_preprocess`: each regex match (a complete
double-quoted literal) is replaced by `__STR_<i>__` and remembered with
its quotes; a quote where the regex cannot match stays in the text and
scanning continues after it (`re.sub` semantics). -/
def hideStrings : Nat → List Char → Nat → List String → List Char × List String
  | 0, cs, _, strs => (cs, strs)
  | _ + 1, [], _, strs => ([], strs)
  | fuel + 1, c :: rest, n, strs =>
    if c == '"' then
      match scanHideString (rest.length + 1) rest with
      | some (content, rest2) =>
        let ph := "__STR_" ++ toString n ++ "__"
        let recd := hideStrings fuel rest2 (n + 1)
          (strs ++ [String.mk ('"' :: content ++ ['"'])])
        (ph.data ++ recd.1, recd.2)
      | none =>
        let recd := hideStrings fuel rest n strs
        (c :: recd.1, recd.2)
    else
      let recd := hideStrings fuel rest n strs
      (c :: recd.1, recd.2)

/-- Python `\w` (ASCII fragment). -/
def isWordChar (c : Char) : Bool := c.isAlphanum || c == '_'

/-- `re.sub(r'\b(the|a|an)\b', '', ..., flags=IGNORECASE)`: drop every
maximal word run equal to a filler article. -/
def fillerStrip : Nat → List Char → List Char
  | 0, cs => cs
  | _ + 1, [] => []
  | fuel + 1, c :: rest =>
    if isWordChar c then
      let run := c :: rest.takeWhile isWordChar
      let rest2 := rest.dropWhile isWordChar
      let w := strLower (String.mk run)
      if w == "the" || w == "a" || w == "an" then fillerStrip fuel rest2
      else run ++ fillerStrip fuel rest2
    else c :: fillerStrip fuel rest

/-- `text.replace('.', '')`. -/
def periodStrip (cs : List Char) : List Char :=
  cs.filter (fun c => !(c == '.'))

/-- `re.sub(r'__STR_(\d+)__', restore, ...)`: placeholders are replaced
by the remembered quoted strings.  (An out-of-range index would raise in
Python; it cannot arise from text produced by `hideStrings` and is kept
verbatim here.) -/
def restorePh (strs : List String) : Nat → List Char → List Char
  | 0, cs => cs
  | _ + 1, [] => []
  | fuel + 1, c :: rest =>
    if c == '_' &&
       (rest.take 5 == ['_', 'S', 'T', 'R', '_']) then
      let afterTag := rest.drop 5
      let digits := afterTag.takeWhile Char.isDigit
      let afterDigits := afterTag.dropWhile Char.isDigit
      if !digits.isEmpty && afterDigits.take 2 == ['_', '_'] then
        let idx := natOfDigits digits
        match strs.get? idx with
        | some s => s.data ++ restorePh strs fuel (afterDigits.drop 2)
        | none => c :: restorePh strs fuel rest
      else c :: restorePh strs fuel rest
    else c :: restorePh strs fuel rest

/-- The comment pass of `_preprocess`: lines whose stripped form starts
with `$$$` toggle block-comment state and are dropped (as are all lines
inside a block); otherwise everything from the first `$` on is cut. -/
def commentPass : List (List Char) → Bool → List (List Char)
  | [], _ => []
  | ln :: rest, inBlock =>
    if (trimChars ln).take 3 == ['$', '$', '$'] then commentPass rest (!inBlock)
    else if inBlock then commentPass rest inBlock
    else
      let ln2 := if ln.contains '$'
                 then ln.takeWhile (fun c => !(c == '$'))
                 else ln
      ln2 :: commentPass rest inBlock

/-- `Lexer._preprocess` (python_code, lines 129-175), in source order:
normalise newlines, hide strings, strip filler articles, strip periods,
RESTORE STRINGS, and only then strip comments.  Because the restore
happens before comment stripping, a `$` inside a string literal is seen
by the comment pass. -/
def pyPreprocess (source : String) : List (List Char) :=
  let text := normalizeNl source.data
  let hidden := hideStrings (text.length + 1) text 0 []
  let noFiller := fillerStrip (hidden.1.length + 1) hidden.1
  let noPeriods := periodStrip noFiller
  let restored := restorePh hidden.2 (noPeriods.length + 1) noPeriods
  commentPass (splitNl restored) false

/-- Python `str.strip(' ,:()')`: drop those characters from both ends. -/
def stripPunct (s : String) : String :=
  let set : List Char := [' ', ',', ':', '(', ')']
  String.mk ((s.data.dropWhile (set.contains ·)).reverse.dropWhile
    (set.contains ·)).reverse

/-- `' '.join(ws)`. -/
def joinSp : List String → String
  | [] => ""
  | [w] => w
  | w :: ws => w ++ " " ++ joinSp ws

/-- The longest-match phrase lookup of the tokenizer word branch: try
window lengths 3, 2, 1 over the whitespace-split remainder of the line,
strip edge punctuation, and return the first phrase found in the keyword
table together with the character count the source consumes for it. -/
def phraseLookup (restLower : String) : Option (String × String × Nat) :=
  let parts := pySplitWs restLower
  let tryLen (k : Nat) : Option (String × String × Nat) :=
    if parts.length ≥ k then
      let ph := joinSp (parts.take k)
      let phClean := stripPunct ph
      match pyKeyword phClean with
      | some kind =>
        let consumed := (joinSp (parts.take (pySplitWs phClean).length)).length
        some (phClean, kind, consumed)
      | none => none
    else none
  match tryLen 3 with
  | some r => some r
  | none =>
    match tryLen 2 with
    | some r => some r
    | none => tryLen 1

/-- The unescaped-closing-quote scan of the tokenizer string branch: the
closing `"` is the first one NOT immediately preceded by a backslash
(`line[j-1] != '\\'`).  Returns the contents and what follows the quote,
or `none` for an unterminated string. -/
def scanTokString (prev : Char) : Nat → List Char →
    Option (List Char × List Char)
  | 0, _ => none
  | _ + 1, [] => none
  | fuel + 1, c :: rest =>
    if c == '"' && !(prev == '\\') then some ([], rest)
    else
      match scanTokString c fuel rest with
      | some (content, rest2) => some (c :: content, rest2)
      | none => none

/-- `while i < len(line) and line[i] == ' ': i += 1`. -/
def skipSpaces (cs : List Char) : List Char :=
  cs.dropWhile (fun c => c == ' ')

/-- The per-line tokenizer loop of `Lexer.tokenize` (python_code, lines
189-275), over the stripped line. -/
def tokLine : Nat → List Char → List Token
  | 0, _ => []
  | _ + 1, [] => []
  | fuel + 1, c :: rest =>
    if c == '"' then
      -- string literal: scan to the first quote not preceded by a
      -- backslash; unterminated strings consume to end of line.
      match scanTokString '"' (rest.length + 1) rest with
      | some (content, rest2) =>
        Token.mk "STRING" (.str (String.mk content))
          :: tokLine fuel (skipSpaces rest2)
      | none => [Token.mk "STRING" (.str (String.mk rest))]
    else if c.isDigit ||
            (c == '-' && (match rest with
                          | d :: _ => d.isDigit
                          | [] => false)) then
      -- number: regex -?\d+(\.\d+)?
      let neg := c == '-'
      let afterSign := if neg then rest else c :: rest
      let digits1 := afterSign.takeWhile Char.isDigit
      let afterInt := afterSign.dropWhile Char.isDigit
      let fracPart : List Char :=
        match afterInt with
        | '.' :: tl =>
          let ds := tl.takeWhile Char.isDigit
          if ds.isEmpty then [] else ds
        | _ => []
      let afterNum := if fracPart.isEmpty then afterInt
                      else (afterInt.drop 1).dropWhile Char.isDigit
      let tok :=
        if fracPart.isEmpty then
          Token.mk "INTEGER"
            (.int (if neg then -(natOfDigits digits1 : Int)
                   else (natOfDigits digits1 : Int)))
        else
          let mag : ℚ := (natOfDigits digits1 : ℚ) +
            (natOfDigits fracPart : ℚ) / ((10 : ℚ) ^ fracPart.length)
          Token.mk "FLOAT" (.float (if neg then -mag else mag))
      tok :: tokLine fuel (skipSpaces afterNum)
    else if [ '(', ')', ',', ':' ].contains c then
      Token.mk (String.mk [c]) (.str (String.mk [c])) :: tokLine fuel rest
    else if !(c.isWhitespace) then
      -- word branch: regex [^\s,():]+ matched at this position
      let wordChars := (c :: rest).takeWhile
        (fun ch => !ch.isWhitespace && !(['(', ')', ',', ':'].contains ch))
      let word := String.mk wordChars
      let restLower := String.mk ((c :: rest).map Char.toLower)
      match phraseLookup restLower with
      | some (chosen, kind, consumed) =>
        Token.mk kind (.str chosen)
          :: tokLine fuel (skipSpaces ((c :: rest).drop consumed))
      | none =>
        let lw := strLower word
        let tok :=
          match pyKeyword lw with
          | some kind => Token.mk kind (.str lw)
          | none =>
            -- the `lw in ('==','!=','!==','~==','~')` arm of the source
            -- is unreachable: all five are already keyword-table entries
            Token.mk "IDENTIFIER" (.str word)
        tok :: tokLine fuel (skipSpaces ((c :: rest).drop word.length))
    else tokLine fuel rest

/-- `Lexer.tokenize`: blank lines are dropped; indentation is the count
of leading spaces of the raw line; the stripped remainder is tokenized. -/
def pyTokenize (source : String) : List Line :=
  (pyPreprocess source).filterMap (fun raw =>
    if (trimChars raw).isEmpty then none
    else
      let indent := (raw.takeWhile (fun c => c == ' ')).length
      let cs := trimChars raw
      some ⟨indent, tokLine (cs.length + 1) cs⟩)

/-! ## Specification-side definitions and concrete fixtures -/

/-- Resolution order as claim C1 states it: SCALAR namespace first, then
the list namespace, then the dict namespace, then the literal fallback.
This follows the claim text (spec section 3), NOT the source; it is the
refinement target that `presolve` is compared against. -/
def resolveSpecC1 (st : St) : Value → Value
  | .int i => .int i
  | .float q => .float q
  | .bool b => .bool b
  | .null => .null
  | .str s =>
    match alookup st.vars (some s) with
    | some v => v
    | none =>
      match alookup st.lists (some s) with
      | some l => .list l
      | none =>
        match alookup st.dicts (some s) with
        | some d => .dict d
        | none => .str s
  | .list xs => .list xs
  | .dict xs => .dict xs

/-- A state in which the name `x` is bound in BOTH the scalar and the
list namespace (the spec stresses the namespaces need not be disjoint). -/
def stBothX : St :=
  { St.init with vars := [(some "x", .int 2)],
                 lists := [(some "x", [.int 1])] }

/-- Scenario D source (spec section 8): a function taking `(a, b)` whose
only body statement is an addition call, then an invocation with 5 and 7. -/
def srcScenarioD : String :=
  "Define function \"addtwo\" which takes (a, b) and does:\n    Call \"add\" a b\nCall \"addtwo\" 5 7"

/-- Scenario E source (spec section 8): an If body printing "a"
immediately followed, at the same indentation, by an OrIf printing "b". -/
def srcScenarioE : String :=
  "If true\n    Display \"a\"\nOr if true\n    Display \"b\""

/-- Scenario C source (spec section 8): assign, divide by zero, then a
further statement that must never run. -/
def srcScenarioC : String :=
  "Assign 10 to x\nDivide x by 0"

/-- A source line whose string literal contains the comment marker. -/
def srcDollarString : String := "Display \"a$b\""

/-- `value is a list` (the `isinstance(iterable, list)` test). -/
def Value.isList : Value → Bool
  | .list _ => true
  | _ => false

/-- `isinstance(v, str)`: the one value shape that `_resolve_value` and
`_set_var` re-resolve through the namespaces. -/
def Value.isStr : Value → Bool
  | .str _ => true
  | _ => false

/-- Nested-block fixture for the collect-block witness: an If header at
indent 4 opening a sub-block at indent 6, a sibling at indent 4, and a
dedent to 0 that must end the block. -/
def linesNested : List Line :=
  [⟨4, [⟨"IF", .str "if"⟩, ⟨"BOOLEAN", .str "true"⟩]⟩,
   ⟨6, [⟨"DISPLAY", .str "display"⟩, ⟨"STRING", .str "deep"⟩]⟩,
   ⟨4, [⟨"DISPLAY", .str "display"⟩, ⟨"STRING", .str "sib"⟩]⟩,
   ⟨0, [⟨"DISPLAY", .str "display"⟩, ⟨"STRING", .str "out"⟩]⟩]

/-- `suffix` is obtained from `rest` by dropping a prefix of lines that
are all indented strictly deeper than `base`: the consumption footprint
of one parsed statement (its own nested blocks included). -/
def SuffixGt (base : Nat) (rest suffix : List Line) : Prop :=
  ∃ pre, rest = pre ++ suffix ∧ ∀ x ∈ pre, base < x.indent

/-- A parse result that consumes the current line plus a strictly-deeper
run: the target shape of every `parse_statement` dispatch branch. -/
def GoodRes (base : Nat) (rest : List Line)
    (T : Option (Option Stmt × List Line)) : Prop :=
  ∃ o suffix, T = some (o, suffix) ∧ SuffixGt base rest suffix

/-- `parse_statement` consumes the current line plus a run of
strictly-deeper lines. -/
def PSprop (f : Nat) : Prop :=
  ∀ l rest, 3 * (l :: rest : List Line).length + 1 ≤ f →
    GoodRes l.indent rest (parseStatement f (l :: rest))

/-- The collection loop stops exactly at the first line shallower than
the baseline. -/
def CLprop (f : Nat) : Prop :=
  ∀ base lines, 3 * lines.length + 2 ≤ f →
    ∃ blk, collectLoop f base lines
      = some (blk, lines.dropWhile (fun x => decide (base ≤ x.indent)))

/-- The `_collect_block` contract of claim C3. -/
def CBprop (f : Nat) : Prop :=
  ∀ pOpt prev lines, 3 * lines.length + 3 ≤ f →
    (lines = [] → collectBlock f pOpt prev lines = some ([], [])) ∧
    (∀ l rest, lines = l :: rest → l.indent ≤ pOpt.getD prev →
       collectBlock f pOpt prev lines = some ([], lines)) ∧
    (∀ l rest, lines = l :: rest → pOpt.getD prev < l.indent →
       ∃ body, collectBlock f pOpt prev lines
         = some (body, lines.dropWhile (fun x => decide (l.indent ≤ x.indent))))

/-! ## Association-list lemmas -/

theorem alookup_eq_none_any {α : Type} (m : List (Name × α)) (k : Name)
    (h : alookup m k = none) : m.any (fun p => p.1 == k) = false := by
  induction m with
  | nil => rfl
  | cons p rest ih =>
    obtain ⟨k1, v1⟩ := p
    by_cases hp : (k1 == k) = true
    · simp [alookup, hp] at h
    · simp only [alookup] at h
      rw [if_neg hp] at h
      simp only [List.any_cons]
      simp [hp, ih h]

theorem alookup_append_fresh {α : Type} (m : List (Name × α)) (k : Name)
    (v : α) (h : alookup m k = none) :
    alookup (m ++ [(k, v)]) k = some v := by
  induction m with
  | nil => simp [alookup]
  | cons p rest ih =>
    obtain ⟨k1, v1⟩ := p
    by_cases hp : (k1 == k) = true
    · simp [alookup, hp] at h
    · simp only [alookup] at h ⊢
      rw [if_neg hp] at h ⊢
      exact ih h

theorem aset_fresh {α : Type} (m : List (Name × α)) (k : Name) (v : α)
    (h : m.any (fun p => p.1 == k) = false) :
    aset m k v = m ++ [(k, v)] := by
  simp [aset, h]

theorem aset_append_update {α : Type} (m : List (Name × α)) (k : Name)
    (v w : α) (h : m.any (fun p => p.1 == k) = false) :
    aset (m ++ [(k, v)]) k w = m ++ [(k, w)] := by
  have hall : ∀ p ∈ m, (p.1 == k) = false := by
    intro p hp
    have := List.any_eq_false.mp h p hp
    simpa using this
  have htrue : ((m ++ [(k, v)]).any (fun p => p.1 == k)) = true := by
    simp [List.any_append]
  simp only [aset, htrue, if_true, List.map_append]
  congr 1
  · have h2 : List.map (fun p => if (p.1 == k) = true then (k, w) else p) m
        = List.map id m := List.map_congr_left (fun p hp => by simp [hall p hp])
    simpa using h2
  · simp

theorem alookup_none_of_any_false {α : Type} (m : List (Name × α))
    (k : Name) (h : m.any (fun p => p.1 == k) = false) :
    alookup m k = none := by
  induction m with
  | nil => rfl
  | cons p rest ih =>
    obtain ⟨k1, v1⟩ := p
    simp only [List.any_cons, Bool.or_eq_false_iff] at h
    simp [alookup, h.1, ih h.2]

theorem alookup_map_set {α : Type} (m : List (Name × α)) (k : Name)
    (v : α) (h : m.any (fun p => p.1 == k) = true) :
    alookup (m.map (fun p => if p.1 == k then (k, v) else p)) k
      = some v := by
  induction m with
  | nil => simp at h
  | cons p rest ih =>
    obtain ⟨k1, v1⟩ := p
    simp only [List.map_cons]
    by_cases hp : (k1 == k) = true
    · rw [if_pos hp]
      simp only [alookup]
      rw [if_pos (by simp)]
    · rw [if_neg hp]
      simp only [alookup]
      rw [if_neg hp]
      simp only [List.any_cons, Bool.or_eq_true] at h
      exact ih (h.resolve_left hp)

/-- Looking up the key just stored always yields the stored value. -/
theorem alookup_aset_self {α : Type} (m : List (Name × α)) (k : Name)
    (v : α) : alookup (aset m k v) k = some v := by
  cases h : m.any (fun p => p.1 == k) with
  | true =>
    unfold aset
    rw [if_pos h]
    exact alookup_map_set m k v h
  | false =>
    rw [aset_fresh m k v h]
    exact alookup_append_fresh m k v (alookup_none_of_any_false m k h)

theorem alookup_map_set_ne {α : Type} (m : List (Name × α)) (k k' : Name)
    (v : α) (hne : k' ≠ k) :
    alookup (m.map (fun p => if p.1 == k then (k, v) else p)) k'
      = alookup m k' := by
  induction m with
  | nil => rfl
  | cons p rest ih =>
    obtain ⟨k1, v1⟩ := p
    simp only [List.map_cons]
    by_cases hp : (k1 == k) = true
    · have hk1 : k1 = k := eq_of_beq hp
      subst hk1
      rw [if_pos hp]
      have hneg : ¬ ((k1 == k') = true) := by
        intro hh
        exact hne (eq_of_beq hh).symm
      simp only [alookup]
      rw [if_neg hneg, if_neg hneg]
      exact ih
    · rw [if_neg hp]
      simp only [alookup]
      by_cases hq : (k1 == k') = true
      · rw [if_pos hq, if_pos hq]
      · rw [if_neg hq, if_neg hq]
        exact ih

theorem alookup_append_single_ne {α : Type} (m : List (Name × α))
    (k k' : Name) (v : α) (hne : k' ≠ k) :
    alookup (m ++ [(k, v)]) k' = alookup m k' := by
  induction m with
  | nil =>
    have hneg : ¬ ((k == k') = true) := by
      intro hh
      exact hne (eq_of_beq hh).symm
    simp only [List.nil_append, alookup]
    rw [if_neg hneg]
  | cons p rest ih =>
    obtain ⟨k1, v1⟩ := p
    simp only [List.cons_append, alookup]
    by_cases hp : (k1 == k') = true
    · rw [if_pos hp, if_pos hp]
    · rw [if_neg hp, if_neg hp]
      exact ih

/-- Storing under one key leaves every other key's lookup unchanged. -/
theorem alookup_aset_ne {α : Type} (m : List (Name × α)) (k k' : Name)
    (v : α) (hne : k' ≠ k) :
    alookup (aset m k v) k' = alookup m k' := by
  cases h : m.any (fun p => p.1 == k) with
  | true =>
    unfold aset
    rw [if_pos h]
    exact alookup_map_set_ne m k k' v hne
  | false =>
    rw [aset_fresh m k v h]
    exact alookup_append_single_ne m k k' v hne

/-- `_resolve_value` only re-resolves strings: every other value shape
comes back unchanged. -/
theorem presolve_notStr (st : St) (v : Value) (h : v.isStr = false) :
    presolve st v = v := by
  cases v <;> simp_all [presolve, Value.isStr]

/-! ## Claim theorems -/

/-- Claim C1 (counterexample): the claimed resolution order (scalar
namespace first) disagrees with the evaluator.  With `x` bound to `2` in
the scalar namespace and to `[1]` in the list namespace, `_resolve_value`
returns the LIST value, while the claimed order would return the scalar. -/
theorem C1_resolve_order_counterexample :
    presolve stBothX (.str "x") = .list [.int 1] ∧
    resolveSpecC1 stBothX (.str "x") = .int 2 ∧
    presolve stBothX (.str "x") ≠ resolveSpecC1 stBothX (.str "x") :=
  ⟨rfl, rfl, fun h => Value.noConfusion h⟩

/-- Claim C1 (amended): for every string value used as an expression,
`_resolve_value` tries the namespaces in the fixed order LIST namespace
first, then the dict namespace, then the scalar namespace, returning the
stored value of the first namespace containing the name, and returns the
string verbatim as a literal when no namespace contains it. -/
theorem C1_resolve_order_amended (st : St) (s : String) :
    (∀ l, alookup st.lists (some s) = some l →
       presolve st (.str s) = .list l) ∧
    (alookup st.lists (some s) = none →
       ∀ d, alookup st.dicts (some s) = some d →
         presolve st (.str s) = .dict d) ∧
    (alookup st.lists (some s) = none → alookup st.dicts (some s) = none →
       ∀ v, alookup st.vars (some s) = some v → presolve st (.str s) = v) ∧
    (alookup st.lists (some s) = none → alookup st.dicts (some s) = none →
       alookup st.vars (some s) = none → presolve st (.str s) = .str s) := by
  refine ⟨?_, ?_, ?_, ?_⟩ <;> intros <;> simp_all [presolve]

/-- Witness for the C1 amended theorem at concrete states. -/
theorem C1_resolve_order_amended_witness :
    presolve stBothX (.str "x") = .list [.int 1] ∧
    presolve { St.init with vars := [(some "y", .int 7)] } (.str "y") = .int 7 ∧
    presolve St.init (.str "z") = .str "z" :=
  ⟨(C1_resolve_order_amended stBothX "x").1 [.int 1] rfl,
   (C1_resolve_order_amended
     { St.init with vars := [(some "y", .int 7)] } "y").2.2.1 rfl rfl (.int 7) rfl,
   (C1_resolve_order_amended St.init "z").2.2.2 rfl rfl rfl⟩

/-- Claim C2 (code bug): Scenario D.  The parsed function definition has
an EMPTY parameter list and an EMPTY body (`parse_function_def` never
extracts `(a, b)` and calls `_collect_block` with the first body line's
own indent as parent, contradicting its comment "current indent is of
the DEFINE line"), the body line leaks out as a top-level statement, and
the invocation with `(5, 7)` returns `None` rather than `12`.  The
caller's scalar namespace is restored (third conjunct), which is the
half of the claim the code does satisfy. -/
theorem C2_scenarioD_returns_null :
    pyParse 30 (pyTokenize srcScenarioD)
      = some [.functionDef (some "addtwo") [] [],
              .functionCall (some "add") [.str "add"],
              .functionCall (some "addtwo") [.str "addtwo", .int 5, .int 7]] ∧
    (pvisit 30 (pvisit 30 St.init (.functionDef (some "addtwo") [] [])).2
        (.functionCall (some "addtwo") [.str "addtwo", .int 5, .int 7])).1
      = .ok .null ∧
    (pvisit 30 (pvisit 30 St.init (.functionDef (some "addtwo") [] [])).2
        (.functionCall (some "addtwo") [.str "addtwo", .int 5, .int 7])).2.vars
      = (pvisit 30 St.init (.functionDef (some "addtwo") [] [])).2.vars :=
  ⟨rfl, rfl, rfl⟩

/-- Claim C4 (counterexample): in the python_code evaluator a
function-call whose name matches neither a user function nor a builtin
RAISES (`Exception("Function ... not defined")`) instead of degrading to
the bare name. -/
theorem C4_unmatched_name_counterexample :
    pvisit 5 St.init (.functionCall (some "frobnicate") [])
      = (.error (.undefinedFunction (some "frobnicate")), St.init) := rfl

/-- Claim C4 (amended): in the caml-code evaluator, a call whose name is
neither a user-defined function nor a module-global callable returns the
bare name itself as a literal string, raises no error, and leaves the
state untouched; the python_code copy raises instead. -/
theorem C4_unmatched_name_amended (fuel : Nat) (st : St) (name : Name)
    (args : List Value) (s : String)
    (hfn : alookup st.functions name = none)
    (hb : camlBuiltin name = none)
    (hs : name = some s) :
    cvisit (fuel + 1) st (.functionCall name args) = (.ok (.str s), st) := by
  subst hs
  simp [cvisit, hfn, hb]

/-- Witness for the C4 amended theorem. -/
theorem C4_unmatched_name_amended_witness :
    cvisit 1 St.init (.functionCall (some "addNumbers") [.int 1])
      = (.ok (.str "addNumbers"), St.init) :=
  C4_unmatched_name_amended 0 St.init (some "addNumbers") [.int 1]
    "addNumbers" rfl rfl rfl

/-- Claim C5: Scenario E.  `If true` displaying "a" immediately followed
at the same indentation by `Or if true` displaying "b" parses into two
independent conditionals, and executing them prints BOTH "a" and "b" (no
if/elseif chaining). -/
theorem C5_if_orif_independent :
    pyParse 20 (pyTokenize srcScenarioE)
      = some [.ifS (.str "true") [.display (.val (.str "a")) false],
              .orIf (.str "true") [.display (.val (.str "b")) false]] ∧
    pexecSeq 20 St.init
        [.ifS (.str "true") [.display (.val (.str "a")) false],
         .orIf (.str "true") [.display (.val (.str "b")) false]]
      = (.ok (), { St.init with console := [.outLine "a", .outLine "b"] }) :=
  ⟨rfl, rfl⟩

/-- Claim C6 (code bug): in the python_code lexer a `$` INSIDE a
double-quoted string is treated as a comment marker, because
`_preprocess` restores hidden strings BEFORE stripping comments.  The
input `Display "a$b"` loses everything from the `$` on: the emitted
STRING token carries `a`, and no token carries the original contents. -/
theorem C6_string_contents_lost :
    pyTokenize srcDollarString
      = [⟨0, [⟨"DISPLAY", .str "display"⟩, ⟨"STRING", .str "a"⟩]⟩] ∧
    ((pyTokenize srcDollarString).all (fun l =>
       l.toks.all (fun t => !(pyEq t.value (.str "a$b"))))) = true :=
  ⟨rfl, rfl⟩

/-- Claim C8: Scenario C.  `Assign 10 to x` then `Divide x by 0` parses
as expected, and executing those two statements followed by ANY further
statements halts with the division-by-zero error: the final state shows
`x = 10`, nothing was printed, and no statement of the suffix ran. -/
theorem C8_division_by_zero_fatal (f : Nat) (rest : List Stmt) :
    pyParse 9 (pyTokenize srcScenarioC)
      = some [.assign (some "x") (.int 10), .divide (some "x") (.int 0)] ∧
    pexecSeq (f + 3) St.init
        ([.assign (some "x") (.int 10), .divide (some "x") (.int 0)] ++ rest)
      = (.error .zeroDivision, { St.init with vars := [(some "x", .int 10)] }) :=
  ⟨rfl, rfl⟩

/-- Claim C10: a ListAdd naming a list absent from the list namespace
never errors: it creates a fresh empty list under the name and appends
the resolved value, so afterwards the list exists and ends with exactly
that value. -/
theorem C10_listadd_creates (f : Nat) (st : St) (name : Name) (v : Value)
    (h : alookup st.lists name = none) :
    pvisit (f + 1) st (.listAdd name v)
      = (.ok .null,
         { st with lists := st.lists ++ [(name, [presolve st v])] }) := by
  have hany := alookup_eq_none_any _ _ h
  have hfresh := aset_fresh st.lists name ([] : List Value) hany
  simp only [pvisit, h, Option.isSome_none, Bool.false_eq_true, if_false,
    hfresh, alookup_append_fresh st.lists name ([] : List Value) h,
    Option.getD_some, List.nil_append,
    aset_append_update st.lists name ([] : List Value) [presolve st v] hany]

/-- Witness for C10 at a concrete state. -/
theorem C10_listadd_creates_witness :
    pvisit 1 St.init (.listAdd (some "xs") (.int 4))
      = (.ok .null, { St.init with lists := [(some "xs", [.int 4])] }) :=
  C10_listadd_creates 0 St.init (some "xs") (.int 4) rfl

/-- Any fuel runs the empty ForEach item loop to completion. -/
theorem cforLoop_nil (f : Nat) (st : St) (varN : Name) (body : List Stmt) :
    cforLoop f st varN [] body = (.ok (), st) := by
  cases f <;> rfl

/-- The caml ForEach item loop run with an accumulator body: iterating
any list `vs` with the body `ListAdd acc item` appends exactly the items
of `vs`, in order, to the accumulator — each iteration first binds the
loop variable and only then runs the body, so the accumulator receives
the per-iteration binding.  Items are required not to be strings so
that `_set_var`'s re-resolution is the identity on them. -/
theorem cforLoop_listAdd_acc (item acc : String) (hne : item ≠ acc) :
    ∀ (vs : List Value) (f : Nat) (st : St) (curr : List Value),
    vs.length + 2 ≤ f →
    alookup st.lists (some acc) = some curr →
    alookup st.lists (some item) = none →
    alookup st.dicts (some item) = none →
    (∀ v ∈ vs, v.isStr = false) →
    ∃ st', cforLoop f st (some item) vs [.listAdd (some acc) (.str item)]
        = (.ok (), st')
      ∧ alookup st'.lists (some acc) = some (curr ++ vs)
      ∧ alookup st'.lists (some item) = none
      ∧ st'.dicts = st.dicts
      ∧ st'.console = st.console := by
  intro vs
  induction vs with
  | nil =>
    intro f st curr _ hacc hil _ _
    exact ⟨st, cforLoop_nil f st _ _, by simpa using hacc, hil, rfl, rfl⟩
  | cons v rest ih =>
    intro f st curr hf hacc hil hid hns
    simp only [List.length_cons] at hf
    obtain ⟨g, rfl⟩ : ∃ g, f = g + 3 := ⟨f - 3, by omega⟩
    have hv : Value.isStr v = false := hns v (by simp)
    have hns' : ∀ w ∈ rest, Value.isStr w = false :=
      fun w hw => hns w (by simp [hw])
    have hps : presolve st v = v := presolve_notStr st v hv
    have hiv : alookup (aset st.vars (some item) v) (some item) = some v :=
      alookup_aset_self _ _ _
    have hone : cforLoop (g + 3) st (some item) (v :: rest)
          [.listAdd (some acc) (.str item)]
        = cforLoop (g + 2)
            { st with vars := aset st.vars (some item) v,
                      lists := aset st.lists (some acc) (curr ++ [v]) }
            (some item) rest [.listAdd (some acc) (.str item)] := by
      have hres : presolve { st with vars := aset st.vars (some item) v }
          (.str item) = v := by
        simp [presolve, hil, hid, hiv]
      simp only [cforLoop, cexecSeq, cvisit, psetVar, hps, hres, hacc,
        Option.isSome_some, if_true, Option.getD_some]
    rw [hone]
    have hneop : (some item : Name) ≠ some acc :=
      fun hh => hne (Option.some.inj hh)
    obtain ⟨st', h1, h2, h3, h4, h5⟩ := ih (g + 2)
      { st with vars := aset st.vars (some item) v,
                lists := aset st.lists (some acc) (curr ++ [v]) }
      (curr ++ [v]) (by omega)
      (alookup_aset_self _ _ _)
      (by rw [alookup_aset_ne st.lists (some acc) (some item) _ hneop]
          exact hil)
      hid hns'
    refine ⟨st', h1, ?_, h3, h4, h5⟩
    simpa [List.append_assoc] using h2

/-- Claim C9: `visit_InteractNode` writes the resolved prompt (bold
marker included when requested) suffixed with `": "`, then blocks on the
input stream: a line of input is returned raw, and an interrupt while
blocked yields the empty string. -/
theorem C9_interact_contract (f : Nat) (st : St) (prompt : Value)
    (bold : Bool) :
    (∀ s tl, st.inputs = .line s :: tl →
       pvisit (f + 1) st (.interact prompt bold)
         = (.ok (.str s),
            { st with
              console := st.console ++ [.promptStr
                ((if bold then "**" ++ pyStr (presolve st prompt) ++ "**"
                  else pyStr (presolve st prompt)) ++ ": ")],
              inputs := tl })) ∧
    (∀ tl, st.inputs = .interrupt :: tl →
       pvisit (f + 1) st (.interact prompt bold)
         = (.ok (.str ""),
            { st with
              console := st.console ++ [.promptStr
                ((if bold then "**" ++ pyStr (presolve st prompt) ++ "**"
                  else pyStr (presolve st prompt)) ++ ": ")],
              inputs := tl })) := by
  obtain ⟨va, fn, ls, dc, ob, mo, cs, co, inp, rnd, fe, g1, g2, g3, g4⟩ := st
  refine ⟨fun s tl hin => ?_, fun tl hin => ?_⟩ <;>
  · dsimp only at hin
    subst hin
    rfl

/-- Witness for C9 at a concrete state and prompt. -/
theorem C9_interact_contract_witness :
    pvisit 1 (St.withOracles [.line "Tom", .interrupt] []) (.interact (.str "name") false)
      = (.ok (.str "Tom"),
         { St.withOracles [.line "Tom", .interrupt] [] with
           console := [.promptStr "name: "], inputs := [.interrupt] }) ∧
    pvisit 1 (St.withOracles [.interrupt] []) (.interact (.str "name") false)
      = (.ok (.str ""),
         { St.withOracles [.interrupt] [] with
           console := [.promptStr "name: "], inputs := [] }) :=
  ⟨(C9_interact_contract 0 (St.withOracles [.line "Tom", .interrupt] [])
      (.str "name") false).1 "Tom" [.interrupt] rfl,
   (C9_interact_contract 0 (St.withOracles [.interrupt] [])
      (.str "name") false).2 [] rfl⟩

/-- Claim C7 (counterexample): a ForEach whose named iterable is bound in
NO namespace does not fail with an iteration-type error — the caml-code
evaluator (like the python_code one) substitutes the empty list: the
statement succeeds with zero iterations and an unchanged state, where the
claim demands an IterationType failure. -/
theorem C7_foreach_counterexample :
    cvisit 9 St.init (.forEach (some "item") (some "xs")
      [.display (.val (.str "item")) false]) = (.ok .null, St.init) := rfl

/-- Claim C7 (amended): in the caml-code evaluator, a name present in
the list namespace iterates the stored list — the loop variable is
bound in the scalar namespace to each item in order (string items are
re-resolved by `_set_var`) and the body runs once per item, shown here
by an accumulator body that reads the loop variable and receives
exactly the items in order — while a name absent from the list
namespace falls back to the scalar namespace, where a truthy non-list
raises the iteration TypeError but an unbound name or falsy value
degrades to the empty list (zero iterations, no error).  The
python_code copy resolves through `lists.get(..) or _get_var(..) or []`
instead of a membership test, so an EMPTY stored list is shadowed by a
truthy non-list scalar of the same name: python_code raises the
TypeError exactly where caml-code performs zero iterations. -/
theorem C7_foreach_amended :
    (∀ (f : Nat) (st : St) (varN itN : Name) (body : List Stmt) (v : Value),
       alookup st.lists itN = none → alookup st.vars itN = some v →
       pyBool v = true → v.isList = false →
       cvisit (f + 1) st (.forEach varN itN body)
         = (.error (.typeError "ForEach expects a list"), st)) ∧
    (∀ (f : Nat) (st : St) (varN itN : Name) (body : List Stmt),
       alookup st.lists itN = none → pyBool (pgetVar st itN) = false →
       cvisit (f + 1) st (.forEach varN itN body) = (.ok .null, st)) ∧
    (∀ (f : Nat) (st : St) (itN : Name) (item acc : String)
       (vs curr : List Value),
       vs.length + 2 ≤ f →
       alookup st.lists itN = some vs →
       alookup st.lists (some acc) = some curr →
       alookup st.lists (some item) = none →
       alookup st.dicts (some item) = none →
       (∀ v ∈ vs, v.isStr = false) →
       item ≠ acc →
       ∃ st', cvisit (f + 1) st (.forEach (some item) itN
                [.listAdd (some acc) (.str item)])
           = (.ok .null, st')
         ∧ alookup st'.lists (some acc) = some (curr ++ vs)
         ∧ st'.console = st.console) ∧
    (∀ (f : Nat) (st : St) (varN itN : Name) (body : List Stmt) (v : Value),
       alookup st.lists itN = some [] → alookup st.vars itN = some v →
       pyBool v = true → v.isList = false →
       pvisit (f + 1) st (.forEach varN itN body)
         = (.error (.typeError "For each expects a list"), st) ∧
       cvisit (f + 1) st (.forEach varN itN body) = (.ok .null, st)) := by
  refine ⟨?_, ?_, ?_, ?_⟩
  · intro f st varN itN body v hl hv hb hnl
    simp only [cvisit, hl, pgetVar, hv, Option.getD_some, hb, if_true]
    cases v <;> simp_all [Value.isList]
  · intro f st varN itN body hl hb
    simp [cvisit, hl, hb, cforLoop_nil]
  · intro f st itN item acc vs curr hf hl hacc hil hid hns hne
    obtain ⟨st', h1, h2, _h3, _h4, h5⟩ :=
      cforLoop_listAdd_acc item acc hne vs f st curr hf hacc hil hid hns
    refine ⟨st', ?_, h2, h5⟩
    simp only [cvisit, hl, h1]
  · intro f st varN itN body v hl hv hb hnl
    constructor
    · have h0 : (if pyBool (Value.list ([] : List Value)) = true
          then some (Value.list ([] : List Value)) else none)
          = (none : Option Value) := rfl
      simp only [pvisit, hl, h0, pgetVar, hv, Option.getD_some, hb, if_true]
      cases v <;> simp_all [Value.isList]
    · simp only [cvisit, hl]
      simp [cforLoop_nil]

/-- Witness for the C7 amended theorem: a truthy scalar string triggers
the TypeError, an unbound name yields the zero-iteration success, a
three-item list accumulates its items in order, and an empty stored
list shadowed by a truthy scalar separates the two copies. -/
theorem C7_foreach_amended_witness :
    (cvisit 1 { St.init with vars := [(some "xs", .str "abc")] }
        (.forEach (some "i") (some "xs") [])
      = (.error (.typeError "ForEach expects a list"),
         { St.init with vars := [(some "xs", .str "abc")] })) ∧
    (cvisit 1 St.init (.forEach (some "i") (some "ys") [])
      = (.ok .null, St.init)) ∧
    (∃ st', cvisit 6
          { St.init with lists := [(some "xs", [.int 1, .int 2, .int 3]),
                                   (some "acc", [])] }
          (.forEach (some "i") (some "xs")
            [.listAdd (some "acc") (.str "i")])
        = (.ok .null, st')
      ∧ alookup st'.lists (some "acc") = some [.int 1, .int 2, .int 3]
      ∧ st'.console = []) ∧
    (pvisit 1 { St.init with lists := [(some "xs", [])],
                             vars := [(some "xs", .str "boom")] }
        (.forEach (some "i") (some "xs") [])
      = (.error (.typeError "For each expects a list"),
         { St.init with lists := [(some "xs", [])],
                        vars := [(some "xs", .str "boom")] }) ∧
     cvisit 1 { St.init with lists := [(some "xs", [])],
                             vars := [(some "xs", .str "boom")] }
        (.forEach (some "i") (some "xs") [])
      = (.ok .null, { St.init with lists := [(some "xs", [])],
                                   vars := [(some "xs", .str "boom")] })) :=
  ⟨C7_foreach_amended.1 0 { St.init with vars := [(some "xs", .str "abc")] }
     (some "i") (some "xs") [] (.str "abc") rfl rfl rfl rfl,
   C7_foreach_amended.2.1 0 St.init (some "i") (some "ys") [] rfl rfl,
   C7_foreach_amended.2.2.1 5
     { St.init with lists := [(some "xs", [.int 1, .int 2, .int 3]),
                              (some "acc", [])] }
     (some "xs") "i" "acc" [.int 1, .int 2, .int 3] []
     (by decide) rfl rfl rfl rfl (by decide) (by decide),
   C7_foreach_amended.2.2.2 0
     { St.init with lists := [(some "xs", [])],
                    vars := [(some "xs", .str "boom")] }
     (some "i") (some "xs") [] (.str "boom") rfl rfl rfl rfl⟩

/-! ## Block-collection correctness (claim C3) -/

theorem dropWhile_append_of_all {α : Type} (p : α → Bool) (pre suf : List α)
    (h : ∀ x ∈ pre, p x = true) :
    (pre ++ suf).dropWhile p = suf.dropWhile p := by
  induction pre with
  | nil => rfl
  | cons a l ih =>
    rw [List.cons_append, List.dropWhile_cons, if_pos (h a (by simp))]
    exact ih (fun x hx => h x (by simp [hx]))

theorem suffixGt_refl (base : Nat) (rest : List Line) :
    SuffixGt base rest rest := ⟨[], rfl, by simp⟩

theorem suffixGt_dropWhile (base b : Nat) (rest : List Line) (h : base < b) :
    SuffixGt base rest (rest.dropWhile (fun x => decide (b ≤ x.indent))) := by
  refine ⟨rest.takeWhile (fun x => decide (b ≤ x.indent)),
    (List.takeWhile_append_dropWhile _ _).symm, ?_⟩
  intro x hx
  have hbx := List.mem_takeWhile_imp hx
  have : b ≤ x.indent := by simpa using hbx
  omega

theorem collectBlock_suffix (g : Nat) (hcb : CBprop g) (pOpt : Option Nat)
    (prev : Nat) (rest : List Line) (hg : 3 * rest.length + 3 ≤ g) :
    ∃ body suffix, collectBlock g pOpt prev rest = some (body, suffix) ∧
      SuffixGt (pOpt.getD prev) rest suffix := by
  obtain ⟨h1, h2, h3⟩ := hcb pOpt prev rest hg
  cases rest with
  | nil => exact ⟨[], [], h1 rfl, suffixGt_refl _ _⟩
  | cons l1 rest2 =>
    by_cases hle : l1.indent ≤ pOpt.getD prev
    · exact ⟨[], l1 :: rest2, h2 l1 rest2 rfl hle, suffixGt_refl _ _⟩
    · obtain ⟨body, hres⟩ := h3 l1 rest2 rfl (by omega)
      exact ⟨body, _, hres, suffixGt_dropWhile _ _ _ (by omega)⟩

/-- One-step unfolding of the collection loop (the autogenerated
equations for `collectLoop` split on its recursive calls and are
unusable with `simp`). -/
theorem collectLoop_cons (g base : Nat) (l : Line) (rest : List Line) :
    collectLoop (g + 1) base (l :: rest)
      = if l.indent < base then some ([], l :: rest)
        else
          match parseStatement g (l :: rest) with
          | none => none
          | some (nodeOpt, rest1) =>
            match collectLoop g base rest1 with
            | none => none
            | some (blk, rest2) =>
              some ((match nodeOpt with
                     | some n => n :: blk
                     | none => blk), rest2) := rfl

theorem goodRes_ite (base : Nat) (rest : List Line) (c : Prop)
    [Decidable c] (A B : Option (Option Stmt × List Line))
    (hA : c → GoodRes base rest A) (hB : ¬ c → GoodRes base rest B) :
    GoodRes base rest (if c then A else B) := by
  by_cases h : c
  · rw [if_pos h]; exact hA h
  · rw [if_neg h]; exact hB h

theorem parserSpec : ∀ f, PSprop f ∧ CLprop f ∧ CBprop f := by
  intro f
  induction f using Nat.strong_induction_on with
  | _ f ih =>
    refine ⟨?_, ?_, ?_⟩
    · -- PSprop
      intro l rest hf
      obtain ⟨g, rfl⟩ : ∃ g, f = g + 1 :=
        ⟨f - 1, by simp only [List.length_cons] at hf; omega⟩
      have hcb : CBprop g := (ih g (by omega)).2.2
      have hg : 3 * rest.length + 3 ≤ g := by
        simp only [List.length_cons] at hf; omega
      show GoodRes l.indent rest (parseStatement (g + 1) (l :: rest))
      simp only [parseStatement]
      -- walk the dispatch chain branch by branch
      repeat
        first
        | exact ⟨_, rest, rfl, suffixGt_refl _ _⟩
        | (obtain ⟨body, suffix, hEq, hSfx⟩ :=
             collectBlock_suffix g hcb (some l.indent) l.indent rest hg
           rw [hEq]
           exact ⟨_, suffix, rfl, hSfx⟩)
        | (obtain ⟨body, suffix, hEq, hSfx⟩ :=
             collectBlock_suffix g hcb none l.indent rest hg
           rw [hEq]
           exact ⟨_, suffix, rfl, hSfx⟩)
        | (cases rest with
           | nil =>
             rw [(hcb (some 0) l.indent [] (by omega)).1 rfl]
             exact ⟨_, [], rfl, suffixGt_refl _ _⟩
           | cons l1 rest2 =>
             rw [(hcb (some l1.indent) l.indent (l1 :: rest2) hg).2.1 l1 rest2
               rfl (by simp)]
             exact ⟨_, l1 :: rest2, rfl, suffixGt_refl _ _⟩)
        | (refine goodRes_ite _ _ _ _ _ (fun hcnd => ?_) (fun hcnd => ?_))
    · -- CLprop
      intro base lines hf
      obtain ⟨g, rfl⟩ : ∃ g, f = g + 1 := ⟨f - 1, by omega⟩
      cases lines with
      | nil => exact ⟨[], rfl⟩
      | cons l rest =>
        by_cases hlt : l.indent < base
        · refine ⟨[], ?_⟩
          rw [collectLoop_cons, if_pos hlt, List.dropWhile_cons,
            if_neg (by simp; omega)]
        · obtain ⟨o, suffix, hps, pre, hpre, hgt⟩ :=
            (ih g (by omega)).1 l rest
              (by simp only [List.length_cons] at hf ⊢; omega)
          -- GoodRes unpacks to the parse equation plus the footprint
          have hlen : suffix.length ≤ rest.length := by
            rw [hpre]; simp
          obtain ⟨blk, hcl⟩ := (ih g (by omega)).2.1 base suffix
            (by simp only [List.length_cons] at hf; omega)
          have hd : (l :: rest).dropWhile (fun x => decide (base ≤ x.indent))
              = suffix.dropWhile (fun x => decide (base ≤ x.indent)) := by
            rw [List.dropWhile_cons, if_pos (by simp; omega), hpre]
            exact dropWhile_append_of_all _ pre suffix
              (fun x hx => by have := hgt x hx; simp; omega)
          refine ⟨(match o with | some n => n :: blk | none => blk), ?_⟩
          rw [collectLoop_cons, if_neg hlt]
          simp only [hps, hcl, hd]
          cases o <;> rfl
    · -- CBprop
      intro pOpt prev lines hf
      obtain ⟨g, rfl⟩ : ∃ g, f = g + 1 := ⟨f - 1, by omega⟩
      refine ⟨?_, ?_, ?_⟩
      · rintro rfl; rfl
      · rintro l rest rfl hle
        simp only [collectBlock]
        rw [if_pos hle]
      · rintro l rest rfl hlt
        obtain ⟨blk, hcl⟩ := (ih g (by omega)).2.1 l.indent (l :: rest)
          (by simp only [List.length_cons] at hf ⊢; omega)
        refine ⟨blk, ?_⟩
        simp only [collectBlock]
        rw [if_neg (by omega), hcl]

/-- Claim C3: for every block-header line, `_collect_block` returns an
empty body when the line stream is exhausted or the next line is not
strictly deeper than the header (first two conjuncts); otherwise the next
line's indentation becomes the block baseline and collection consumes
exactly the maximal run of lines with indentation greater than or equal
to that baseline (deeper lines, and hence nested sub-blocks, included),
stopping at the first line strictly shallower than the baseline: the
returned cursor is the stream with precisely that run removed. -/
theorem C3_collect_block_spec (f parent prev : Nat) (lines : List Line)
    (hf : 3 * lines.length + 3 ≤ f) :
    (lines = [] → collectBlock f (some parent) prev lines = some ([], [])) ∧
    (∀ l rest, lines = l :: rest → l.indent ≤ parent →
       collectBlock f (some parent) prev lines = some ([], lines)) ∧
    (∀ l rest, lines = l :: rest → parent < l.indent →
       ∃ body, collectBlock f (some parent) prev lines
         = some (body, lines.dropWhile (fun x => decide (l.indent ≤ x.indent)))) :=
  (parserSpec f).2.2 (some parent) prev lines hf

/-- Witness for C3 on the nested fixture: the baseline is 4, the
deeper line (indent 6) and the sibling (indent 4) are consumed into the
block, and the dedented line (indent 0) ends it; a same-indent next line
yields an empty block. -/
theorem C3_collect_block_spec_witness :
    (∃ body, collectBlock 30 (some 0) 0 linesNested
       = some (body, [⟨0, [⟨"DISPLAY", .str "display"⟩, ⟨"STRING", .str "out"⟩]⟩])) ∧
    collectBlock 30 (some 4) 0 linesNested = some ([], linesNested) :=
  ⟨(C3_collect_block_spec 30 0 0 linesNested (by decide)).2.2
     ⟨4, [⟨"IF", .str "if"⟩, ⟨"BOOLEAN", .str "true"⟩]⟩ _ rfl (by decide),
   (C3_collect_block_spec 30 4 0 linesNested (by decide)).2.1
     ⟨4, [⟨"IF", .str "if"⟩, ⟨"BOOLEAN", .str "true"⟩]⟩ _ rfl (by decide)⟩

end Caml
